import Mathlib

/-!
Verification development for the joppy library (Python client for the Joplin
data API).  The definitions below are a shallow embedding of the code in
`joppy/server_api.py`, `joppy/data_types.py` and `joppy/tools.py`:

* Python `str` values are modelled as `List Char` (abbreviated `Str`);
* Python string methods `split(sep, 1)`, `rsplit(sep, 1)` and `split("\n")`
  are modelled by `splitOnce`, `rsplitOnce` and `splitNl`;
* Python exceptions are modelled with `Except String`;
* Python `datetime` values are modelled by a calendar record `DateTime`
  (for the record codec) and by epoch milliseconds (for the lock manager,
  which only adds constant offsets to and compares datetimes);
* mutation of `self` (dataclass field assignment) is modelled by returning
  the updated record.
-/

/-- Python `str`, modelled as a list of characters. -/
abbrev Str := List Char

/-! ## Substring search: first and last occurrence

`str.split(sep, 1)` cuts at the first occurrence of `sep`,
`str.rsplit(sep, 1)` at the last one.  We model occurrence search directly.
-/

/-- Index of the first occurrence of `sep` in `s` (for nonempty `sep`). -/
def firstIdx (sep : Str) : Str → Option Nat
  | [] => if sep.isPrefixOf ([] : Str) then some 0 else none
  | c :: cs =>
    if sep.isPrefixOf (c :: cs) then some 0
    else (firstIdx sep cs).map (· + 1)

/-- Index of the last occurrence of `sep` in `s` (for nonempty `sep`). -/
def lastIdx (sep : Str) : Str → Option Nat
  | [] => if sep.isPrefixOf ([] : Str) then some 0 else none
  | c :: cs =>
    match lastIdx sep cs with
    | some i => some (i + 1)
    | none => if sep.isPrefixOf (c :: cs) then some 0 else none

/-- Whether `sep` occurs somewhere in `s`. -/
def hasSub (sep s : Str) : Bool := (firstIdx sep s).isSome

/-- Python `s.split(sep, 1)`: the part before the first occurrence of `sep`,
and, when `sep` occurs, the part after it.  (Python returns a list of one or
two strings; we return the pair form.) -/
def splitOnce (sep s : Str) : Str × Option Str :=
  match firstIdx sep s with
  | none => (s, none)
  | some i => (s.take i, some (s.drop (i + sep.length)))

/-- Python `s.rsplit(sep, 1)`: split at the last occurrence of `sep`. -/
def rsplitOnce (sep s : Str) : Str × Option Str :=
  match lastIdx sep s with
  | none => (s, none)
  | some i => (s.take i, some (s.drop (i + sep.length)))

/-- Python `s.split("\n")`: all fields, empty ones kept. -/
def splitNl : Str → List Str
  | [] => [[]]
  | c :: cs =>
    if c = '\n' then [] :: splitNl cs
    else
      match splitNl cs with
      | [] => [[c]]
      | l :: ls => (c :: l) :: ls

/-- The double-newline section separator of the wire format. -/
def nn : Str := ['\n', '\n']

/-! ### Characterisations of occurrence search -/

theorem firstIdx_eq_some_iff (sep : Str) (hsep : sep ≠ []) :
    ∀ (s : Str) (i : Nat), firstIdx sep s = some i ↔
      sep.isPrefixOf (s.drop i) ∧ ∀ j, j < i → ¬ sep.isPrefixOf (s.drop j) := by
  intro s
  induction s with
  | nil =>
    intro i
    cases sep with
    | nil => exact absurd rfl hsep
    | cons c cs =>
      rw [show firstIdx (c :: cs) [] = none from rfl]
      constructor
      · intro h; cases h
      · rintro ⟨h, -⟩
        rw [List.drop_nil] at h
        simp [List.isPrefixOf] at h
  | cons c cs ih =>
    intro i
    by_cases hpre : sep.isPrefixOf (c :: cs)
    · simp only [firstIdx, hpre, if_true]
      constructor
      · rintro h
        cases h
        exact ⟨by simpa using hpre, fun j hj => absurd hj (Nat.not_lt_zero j)⟩
      · rintro ⟨h, hmin⟩
        cases i with
        | zero => rfl
        | succ i => exact absurd (by simpa using hpre) (hmin 0 (Nat.succ_pos i))
    · simp only [firstIdx, hpre, if_false]
      constructor
      · intro h
        rcases Option.map_eq_some'.mp h with ⟨i0, hi0, rfl⟩
        rcases (ih i0).mp hi0 with ⟨h1, h2⟩
        refine ⟨by simpa using h1, ?_⟩
        intro j hj
        cases j with
        | zero => simpa using hpre
        | succ j =>
          have := h2 j (Nat.lt_of_succ_lt_succ hj)
          simpa using this
      · rintro ⟨h1, h2⟩
        cases i with
        | zero => exact absurd (by simpa using h1) hpre
        | succ i =>
          have hmem : firstIdx sep cs = some i := by
            refine (ih i).mpr ⟨by simpa using h1, ?_⟩
            intro j hj
            have := h2 (j + 1) (Nat.succ_lt_succ hj)
            simpa using this
          rw [hmem]
          rfl

theorem firstIdx_eq_none_iff (sep : Str) (hsep : sep ≠ []) :
    ∀ s : Str, firstIdx sep s = none ↔ ∀ j, ¬ sep.isPrefixOf (s.drop j) := by
  intro s
  induction s with
  | nil =>
    simp only [firstIdx, List.drop_nil]
    cases sep with
    | nil => exact absurd rfl hsep
    | cons c cs => simp [List.isPrefixOf]
  | cons c cs ih =>
    by_cases hpre : sep.isPrefixOf (c :: cs)
    · simp only [firstIdx, hpre, if_true]
      constructor
      · intro h; cases h
      · intro h
        exact absurd (by simpa using hpre) (h 0)
    · simp only [firstIdx, hpre, if_false]
      constructor
      · intro h j
        have hnone : firstIdx sep cs = none := by
          cases hcs : firstIdx sep cs with
          | none => rfl
          | some i => rw [hcs] at h; cases h
        cases j with
        | zero => simpa using hpre
        | succ j => simpa using (ih.mp hnone) j
      · intro h
        have hnone : firstIdx sep cs = none := by
          refine ih.mpr ?_
          intro j
          have := h (j + 1)
          simpa using this
        rw [hnone]
        rfl

theorem lastIdx_eq_none_iff (sep : Str) (hsep : sep ≠ []) :
    ∀ s : Str, lastIdx sep s = none ↔ ∀ j, ¬ sep.isPrefixOf (s.drop j) := by
  intro s
  induction s with
  | nil =>
    simp only [lastIdx, List.drop_nil]
    cases sep with
    | nil => exact absurd rfl hsep
    | cons c cs => simp [List.isPrefixOf]
  | cons c cs ih =>
    constructor
    · intro h j
      simp only [lastIdx] at h
      cases hcs : lastIdx sep cs with
      | some i => rw [hcs] at h; cases h
      | none =>
        rw [hcs] at h
        cases j with
        | zero =>
          intro hpre
          rw [if_pos (by simpa using hpre)] at h
          cases h
        | succ j => simpa using (ih.mp hcs) j
    · intro h
      have hnone : lastIdx sep cs = none := by
        refine ih.mpr ?_
        intro j
        have := h (j + 1)
        simpa using this
      simp only [lastIdx, hnone]
      rw [if_neg]
      intro hpre
      exact h 0 (by simpa using hpre)

theorem lastIdx_eq_some_iff (sep : Str) (hsep : sep ≠ []) :
    ∀ (s : Str) (i : Nat), lastIdx sep s = some i ↔
      sep.isPrefixOf (s.drop i) ∧ ∀ j, i < j → ¬ sep.isPrefixOf (s.drop j) := by
  intro s
  induction s with
  | nil =>
    intro i
    simp only [lastIdx, List.drop_nil]
    cases sep with
    | nil => exact absurd rfl hsep
    | cons c cs =>
      simp only [List.isPrefixOf, if_false]
      constructor
      · intro h; cases h
      · rintro ⟨h, -⟩; cases h
  | cons c cs ih =>
    intro i
    cases hcs : lastIdx sep cs with
    | some i0 =>
      simp only [lastIdx, hcs]
      rcases (ih i0).mp hcs with ⟨h1, h2⟩
      constructor
      · intro h
        cases h
        refine ⟨by simpa using h1, ?_⟩
        intro j hj
        cases j with
        | zero => cases hj
        | succ j =>
          have := h2 j (Nat.lt_of_succ_lt_succ hj)
          simpa using this
      · rintro ⟨h3, h4⟩
        cases i with
        | zero =>
          exfalso
          exact h4 (i0 + 1) (Nat.succ_pos i0) (by simpa using h1)
        | succ i =>
          have heq : lastIdx sep cs = some i := by
            refine (ih i).mpr ⟨by simpa using h3, ?_⟩
            intro j hj
            have := h4 (j + 1) (Nat.succ_lt_succ hj)
            simpa using this
          rw [hcs] at heq
          cases heq
          rfl
    | none =>
      have hforall : ∀ j, ¬ sep.isPrefixOf (cs.drop j) :=
        (lastIdx_eq_none_iff sep hsep cs).mp hcs
      simp only [lastIdx, hcs]
      by_cases hpre : sep.isPrefixOf (c :: cs)
      · simp only [hpre, if_true]
        constructor
        · intro h
          cases h
          refine ⟨by simpa using hpre, ?_⟩
          intro j hj
          cases j with
          | zero => cases hj
          | succ j => simpa using hforall j
        · rintro ⟨h1, -⟩
          cases i with
          | zero => rfl
          | succ i => exact absurd (by simpa using h1) (hforall i)
      · simp only [hpre, if_false]
        constructor
        · intro h; cases h
        · rintro ⟨h1, -⟩
          cases i with
          | zero => exact absurd (by simpa using h1) hpre
          | succ i => exact absurd (by simpa using h1) (hforall i)

/-! ### Occurrence search at an explicit boundary -/

theorem prefix_append_left {l a b : Str} (h : l <+: a ++ b)
    (hle : l.length ≤ a.length) : l <+: a := by
  have h1 : l = (a ++ b).take l.length := List.prefix_iff_eq_take.mp h
  rw [List.take_append_of_le_length hle] at h1
  rw [h1]
  exact List.take_prefix l.length a

theorem singleton_prefix_iff_head (x : Char) (m : Str) :
    [x] <+: m ↔ m.head? = some x := by
  cases m with
  | nil => simp
  | cons y ys =>
    simp only [List.head?_cons, Option.some.injEq]
    constructor
    · intro h
      rcases (List.cons_prefix_cons.mp h) with ⟨h1, -⟩
      exact h1.symm
    · rintro rfl
      exact List.cons_prefix_cons.mpr ⟨rfl, List.nil_prefix⟩

theorem hasSub_eq_false_iff (sep : Str) (hsep : sep ≠ []) (s : Str) :
    hasSub sep s = false ↔ ∀ j, ¬ sep <+: s.drop j := by
  unfold hasSub
  have hiff : (firstIdx sep s).isSome = false ↔ firstIdx sep s = none := by
    cases firstIdx sep s <;> simp
  rw [hiff, firstIdx_eq_none_iff sep hsep s]
  constructor
  · intro h j hj
    exact h j (List.isPrefixOf_iff_prefix.mpr hj)
  · intro h j hj
    exact h j (List.isPrefixOf_iff_prefix.mp hj)

/-- The first occurrence of a two-character separator in `t ++ sep ++ u` is at
index `t.length`, provided `sep` does not occur in `t` and (when both separator
characters are equal) `t` does not end with that character. -/
theorem firstIdx_pair (a b : Char) (t u : Str) (ht : hasSub [a, b] t = false)
    (hlast : a = b → t.getLast? ≠ some a) :
    firstIdx [a, b] (t ++ [a, b] ++ u) = some t.length := by
  have hsep : ([a, b] : Str) ≠ [] := by simp
  have hno : ∀ j, ¬ ([a, b] : Str) <+: t.drop j :=
    (hasSub_eq_false_iff [a, b] hsep t).mp ht
  rw [firstIdx_eq_some_iff [a, b] hsep]
  constructor
  · rw [List.append_assoc, List.drop_left]
    exact List.isPrefixOf_iff_prefix.mpr (List.prefix_append [a, b] u)
  · intro j hj hpre
    replace hpre := List.isPrefixOf_iff_prefix.mp hpre
    rw [List.append_assoc] at hpre
    rw [List.drop_append_of_le_length (Nat.le_of_lt hj)] at hpre
    by_cases hle : j + 2 ≤ t.length
    · have hlen : ([a, b] : Str).length ≤ (t.drop j).length := by
        rw [List.length_drop]
        simp only [List.length_cons, List.length_nil]
        omega
      exact hno j (prefix_append_left hpre hlen)
    · -- straddling case: j = t.length - 1, so t ends with the character a
      have hdl : (t.drop j).length = 1 := by
        rw [List.length_drop]
        omega
      rcases hd : t.drop j with _ | ⟨x, xs⟩
      · rw [hd] at hdl; cases hdl
      · have hxs : xs = [] := by
          rw [hd] at hdl
          simpa using hdl
        subst hxs
        rw [hd] at hpre
        rcases List.cons_prefix_cons.mp hpre with ⟨hax, hbpre⟩
        have hba : b = a := by
          have hbx : [b] <+: ([a, b] ++ u) := by simpa using hbpre
          have h1 := (singleton_prefix_iff_head b ([a, b] ++ u)).mp hbx
          simpa using h1.symm
        -- t.getLast? = some x = some a, contradiction with hlast
        have hx : t.getLast? = some x := by
          have hsplit : t.take j ++ [x] = t := by
            have h2 := List.take_append_drop j t
            rw [hd] at h2
            exact h2
          rw [← hsplit]
          exact List.getLast?_concat (t.take j)
        exact hlast hba.symm (by rw [hx, hax])

/-- The last occurrence of a two-character separator in `p ++ sep ++ m` is at
index `p.length`, provided `sep` does not occur in `m` and (when both separator
characters are equal) `m` does not start with that character. -/
theorem lastIdx_pair (a b : Char) (p m : Str) (hm : hasSub [a, b] m = false)
    (hhead : a = b → m.head? ≠ some b) :
    lastIdx [a, b] (p ++ [a, b] ++ m) = some p.length := by
  have hsep : ([a, b] : Str) ≠ [] := by simp
  have hno : ∀ j, ¬ ([a, b] : Str) <+: m.drop j :=
    (hasSub_eq_false_iff [a, b] hsep m).mp hm
  rw [lastIdx_eq_some_iff [a, b] hsep]
  constructor
  · rw [List.append_assoc, List.drop_left]
    exact List.isPrefixOf_iff_prefix.mpr (List.prefix_append [a, b] m)
  · intro j hj hpre
    replace hpre := List.isPrefixOf_iff_prefix.mp hpre
    by_cases hcase : j = p.length + 1
    · subst hcase
      have hdrop : (p ++ [a, b] ++ m).drop (p.length + 1) = b :: m := by
        rw [List.append_assoc, List.drop_append 1]
        rfl
      rw [hdrop] at hpre
      rcases List.cons_prefix_cons.mp hpre with ⟨hab, hbpre⟩
      have hhd : m.head? = some b := by
        refine (singleton_prefix_iff_head b m).mp ?_
        simpa using hbpre
      exact hhead hab hhd
    · have hge : p.length + 2 ≤ j := by omega
      obtain ⟨k, rfl⟩ := Nat.exists_eq_add_of_le hge
      have hdrop : (p ++ [a, b] ++ m).drop (p.length + 2 + k) = m.drop k := by
        rw [List.append_assoc]
        have h1 : p.length + 2 + k = p.length + (2 + k) := by omega
        rw [h1, List.drop_append (2 + k)]
        rw [show 2 + k = ([a, b] : Str).length + k from by simp, List.drop_append k]
      rw [hdrop] at hpre
      exact hno k hpre

/-- When the separator does not occur at all, both split forms return the
whole string with no second part. -/
theorem splitOnce_no_sep (sep s : Str) (_hsep : sep ≠ [])
    (h : hasSub sep s = false) : splitOnce sep s = (s, none) := by
  unfold splitOnce
  have hnone : firstIdx sep s = none := by
    unfold hasSub at h
    cases hf : firstIdx sep s
    · rfl
    · rw [hf] at h; cases h
  rw [hnone]

theorem rsplitOnce_no_sep (sep s : Str) (hsep : sep ≠ [])
    (h : hasSub sep s = false) : rsplitOnce sep s = (s, none) := by
  unfold rsplitOnce
  have hnone : lastIdx sep s = none := by
    rw [lastIdx_eq_none_iff sep hsep]
    intro j hj
    exact (hasSub_eq_false_iff sep hsep s).mp h j (List.isPrefixOf_iff_prefix.mp hj)
  rw [hnone]

/-- Splitting `t ++ sep ++ u` at the first occurrence recovers `t` and `u`. -/
theorem splitOnce_pair (a b : Char) (t u : Str) (ht : hasSub [a, b] t = false)
    (hlast : a = b → t.getLast? ≠ some a) :
    splitOnce [a, b] (t ++ [a, b] ++ u) = (t, some u) := by
  unfold splitOnce
  rw [firstIdx_pair a b t u ht hlast]
  dsimp only
  have hdrop : (t ++ [a, b] ++ u).drop (t.length + ([a, b] : Str).length) = u := by
    rw [show t.length + ([a, b] : Str).length = (t ++ [a, b] : Str).length from by simp,
      List.drop_left]
  rw [hdrop, List.append_assoc, List.take_left]

/-- Splitting `p ++ sep ++ m` at the last occurrence recovers `p` and `m`. -/
theorem rsplitOnce_pair (a b : Char) (p m : Str) (hm : hasSub [a, b] m = false)
    (hhead : a = b → m.head? ≠ some b) :
    rsplitOnce [a, b] (p ++ [a, b] ++ m) = (p, some m) := by
  unfold rsplitOnce
  rw [lastIdx_pair a b p m hm hhead]
  dsimp only
  have hdrop : (p ++ [a, b] ++ m).drop (p.length + ([a, b] : Str).length) = m := by
    rw [show p.length + ([a, b] : Str).length = (p ++ [a, b] : Str).length from by simp,
      List.drop_left]
  rw [hdrop, List.append_assoc, List.take_left]

/-! ## Joining and splitting lines

`"\n".join(lines)` is modelled by `joinNl`; the inverse direction
(`s.split("\n")`) is `splitNl` above.
-/

/-- Python `"\n".join(lines)`. -/
def joinNl : List Str → Str
  | [] => []
  | [l] => l
  | l :: ls => l ++ '\n' :: joinNl ls

theorem splitNl_no_newline (l : Str) (h : '\n' ∉ l) : splitNl l = [l] := by
  induction l with
  | nil => rfl
  | cons c cs ih =>
    have hc : c ≠ '\n' := fun hc => h (hc ▸ List.mem_cons_self c cs)
    have hcs : '\n' ∉ cs := fun hm => h (List.mem_cons_of_mem c hm)
    simp only [splitNl, if_neg hc, ih hcs]

theorem splitNl_append_cons (l rest : Str) (h : '\n' ∉ l) :
    splitNl (l ++ '\n' :: rest) = l :: splitNl rest := by
  induction l with
  | nil => simp [splitNl]
  | cons c cs ih =>
    have hc : c ≠ '\n' := fun hc => h (hc ▸ List.mem_cons_self c cs)
    have hcs : '\n' ∉ cs := fun hm => h (List.mem_cons_of_mem c hm)
    simp only [List.cons_append, splitNl, if_neg hc]
    rw [show cs.append ('\n' :: rest) = cs ++ '\n' :: rest from rfl, ih hcs]

/-- `split("\n")` undoes `"\n".join` when no line contains a newline. -/
theorem splitNl_joinNl (ls : List Str) (hne : ls ≠ [])
    (h : ∀ l ∈ ls, '\n' ∉ l) : splitNl (joinNl ls) = ls := by
  induction ls with
  | nil => exact absurd rfl hne
  | cons l ls ih =>
    cases ls with
    | nil => exact splitNl_no_newline l (h l (List.mem_cons_self l []))
    | cons l2 ls2 =>
      have hl : '\n' ∉ l := h l (List.mem_cons_self l (l2 :: ls2))
      have hrest : ∀ x ∈ l2 :: ls2, '\n' ∉ x := fun x hx =>
        h x (List.mem_cons_of_mem l hx)
      rw [show joinNl (l :: l2 :: ls2) = l ++ '\n' :: joinNl (l2 :: ls2) from rfl]
      rw [splitNl_append_cons l _ hl, ih (by simp) hrest]

/-! ## Python integer parsing

`data_types.is_id_valid` decides 32-character ids with `int(id_, 16)`;
`deserialize` and `__post_init__` use `int(value)` (base 10).  CPython first
transforms the whole string — every Unicode decimal digit (category Nd) is
replaced by the corresponding ASCII digit and every Unicode whitespace
character by a plain space — and then parses the transformed string with an
ASCII grammar: optional surrounding whitespace, an optional sign, for
base 16 an optional `0x`/`0X` prefix (optionally followed by one
underscore), then digits with single underscores allowed only between
digits.
-/

/-- ASCII whitespace, as stripped by the numeric parser after the
transform (which has already turned all other whitespace into spaces). -/
def isAsciiSpace (c : Char) : Bool :=
  c = ' ' ∨ c = '\t' ∨ c = '\n' ∨ c = '\r' ∨ c = '\x0b' ∨ c = '\x0c'

/-- The code points CPython treats as whitespace (`Py_UNICODE_ISSPACE`). -/
def pySpaceCodes : List Nat :=
  [0x9, 0xA, 0xB, 0xC, 0xD, 0x1C, 0x1D, 0x1E, 0x1F, 0x20, 0x85, 0xA0,
   0x1680, 0x2000, 0x2001, 0x2002, 0x2003, 0x2004, 0x2005, 0x2006, 0x2007,
   0x2008, 0x2009, 0x200A, 0x2028, 0x2029, 0x202F, 0x205F, 0x3000]

/-- Unicode whitespace, as recognised by CPython's transform of numeric
strings. -/
def isPySpace (c : Char) : Bool := decide (c.toNat ∈ pySpaceCodes)

/-- First code points of the decimal-digit (category Nd) ranges of
Unicode 14.0, the table CPython 3.11 ships; each range spans ten
consecutive code points carrying the digit values 0 to 9. -/
def pyDigitRangeStarts : List Nat :=
  [0x30, 0x660, 0x6F0, 0x7C0, 0x966, 0x9E6, 0xA66, 0xAE6, 0xB66, 0xBE6,
   0xC66, 0xCE6, 0xD66, 0xDE6, 0xE50, 0xED0, 0xF20, 0x1040, 0x1090, 0x17E0,
   0x1810, 0x1946, 0x19D0, 0x1A80, 0x1A90, 0x1B50, 0x1BB0, 0x1C40, 0x1C50,
   0xA620, 0xA8D0, 0xA900, 0xA9D0, 0xA9F0, 0xAA50, 0xABF0, 0xFF10,
   0x104A0, 0x10D30, 0x11066, 0x110F0, 0x11136, 0x111D0, 0x112F0, 0x11450,
   0x114D0, 0x11650, 0x116C0, 0x11730, 0x118E0, 0x11950, 0x11C50, 0x11D50,
   0x11DA0, 0x16A60, 0x16AC0, 0x16B50, 0x1D7CE, 0x1D7D8, 0x1D7E2, 0x1D7EC,
   0x1D7F6, 0x1E140, 0x1E2F0, 0x1E950, 0x1FBF0]

/-- The decimal value of a Unicode decimal digit, `none` for any other
character. -/
def decDigitVal (c : Char) : Option Nat :=
  (pyDigitRangeStarts.find? fun r => decide (r ≤ c.toNat ∧ c.toNat ≤ r + 9)).map
    fun r => c.toNat - r

/-- CPython's transform of decimal digits and whitespace to ASCII
(`_PyUnicode_TransformDecimalAndSpaceToASCII`), applied character-wise to
the string before `int` and `float` parse it. -/
def pyToAscii (c : Char) : Char :=
  match decDigitVal c with
  | some v => Char.ofNat (48 + v)
  | none => if isPySpace c then ' ' else c

/-- ASCII hexadecimal digit (code points of `0`-`9`, `a`-`f`, `A`-`F`), as
accepted by the post-transform parser of `int(_, 16)`. -/
def isHexDigitAscii (c : Char) : Bool :=
  decide ((48 ≤ c.toNat ∧ c.toNat ≤ 57) ∨ (97 ≤ c.toNat ∧ c.toNat ≤ 102)
    ∨ (65 ≤ c.toNat ∧ c.toNat ≤ 70))

/-- ASCII decimal digit (code points of `0`-`9`). -/
def isDecDigitAscii (c : Char) : Bool := decide (48 ≤ c.toNat ∧ c.toNat ≤ 57)

/-- Tail of a digit run: digits with single underscores between digits. -/
def digitsTail (isDig : Char → Bool) : Str → Bool
  | [] => true
  | [c] => if c = '_' then false else isDig c
  | c :: c2 :: rest =>
    if c = '_' then isDig c2 && digitsTail isDig rest
    else isDig c && digitsTail isDig (c2 :: rest)

/-- A nonempty digit run (no leading underscore). -/
def digitsRun (isDig : Char → Bool) : Str → Bool
  | [] => false
  | c :: rest => isDig c && digitsTail isDig rest

/-- Strip leading and trailing ASCII whitespace (applied after the
transform). -/
def pyStrip (s : Str) : Str :=
  ((s.dropWhile isAsciiSpace).reverse.dropWhile isAsciiSpace).reverse

/-- Drop one optional leading sign. -/
def dropSign (s : Str) : Str :=
  match s with
  | c :: rest => if c = '+' ∨ c = '-' then rest else s
  | [] => []

/-- The stripped, unsigned core of `int(s, 16)`: an optional `0x`/`0X`
prefix (optionally followed by one underscore), then a hex digit run. -/
def pyIntCore16 (t : Str) : Bool :=
  match t with
  | c0 :: c1 :: rest =>
    if c0 = '0' ∧ (c1 = 'x' ∨ c1 = 'X') then
      match rest with
      | r0 :: rest2 =>
        if r0 = '_' then digitsRun isHexDigitAscii rest2
        else digitsRun isHexDigitAscii rest
      | [] => digitsRun isHexDigitAscii rest
    else digitsRun isHexDigitAscii t
  | _ => digitsRun isHexDigitAscii t

/-- Does CPython `int(s, 16)` succeed on `s`?  The string is transformed to
ASCII first, then stripped of whitespace and of one optional sign, then
matched against the base-16 grammar. -/
def pyIntOkBase16 (s : Str) : Bool :=
  pyIntCore16 (dropSign (pyStrip (s.map pyToAscii)))

/-- Value of a digit-and-underscore run (validity checked separately). -/
def runVal (base : Nat) (val : Char → Nat) (s : Str) : Nat :=
  s.foldl (fun acc c => if c = '_' then acc else acc * base + val c) 0

/-- CPython `int(s)` (base 10): `some` value on success, `none` on
`ValueError`.  The transform precedes the parse, so the digit run and its
value computation only see ASCII digits. -/
def pyIntBase10 (s : Str) : Option Int :=
  let t0 := pyStrip (s.map pyToAscii)
  let neg := match t0 with
    | c :: _ => c == '-'
    | [] => false
  let t := dropSign t0
  if digitsRun isDecDigitAscii t then
    let v : Int := Int.ofNat (runVal 10 (fun c => c.toNat - '0'.toNat) t)
    some (if neg then -v else v)
  else
    none

/-! ## data_types.py: id validation -/

/-- `data_types.is_id_valid`: a 32-character string is valid when
`int(id_, 16)` succeeds, a 22-character string is always valid, and any other
length is invalid. -/
def is_id_valid (id_ : Str) : Bool :=
  if id_.length = 32 then
    -- client ID: `int(id_, 16)` inside try/except
    pyIntOkBase16 id_
  else if id_.length = 22 then
    -- server ID
    true
  else
    false

/-- Lowercase-hexadecimal digit (code points of `0`-`9` and `a`-`f`). -/
def isLowerHexDigit (c : Char) : Bool :=
  decide ((48 ≤ c.toNat ∧ c.toNat ≤ 57) ∨ (97 ≤ c.toNat ∧ c.toNat ≤ 102))

/-! ## Python datetime

`BaseData.__post_init__` converts millisecond-epoch integers with
`datetime.utcfromtimestamp(value_int / 1000.0)` and, as a fallback, parses
`"%Y-%m-%dT%H:%M:%S.%fZ"` with `strptime`.  `serialize` renders a datetime
with `str()`, i.e. `YYYY-MM-DD HH:MM:SS[.ffffff]`.  We model a datetime by its
calendar fields; `utcfromtimestamp` is modelled for non-negative timestamps
(the only ones produced by the epoch-millisecond fields of this API).
-/

structure DateTime where
  year : Nat
  month : Nat
  day : Nat
  hour : Nat
  minute : Nat
  second : Nat
  microsecond : Nat
deriving DecidableEq, Repr

/-- Proleptic-Gregorian date from days since 1970-01-01 (civil-from-days). -/
def civilFromDays (z0 : Nat) : Nat × Nat × Nat :=
  let z := z0 + 719468
  let era := z / 146097
  let doe := z % 146097
  let yoe := (doe - doe / 1460 + doe / 36524 - doe / 146097) / 365
  let y := yoe + era * 400
  let doy := doe - (365 * yoe + yoe / 4 - yoe / 100)
  let mp := (5 * doy + 2) / 153
  let d := doy - (153 * mp + 2) / 5 + 1
  let m := if mp < 10 then mp + 3 else mp - 9
  (if m ≤ 2 then y + 1 else y, m, d)

/-- `datetime.utcfromtimestamp(ms / 1000.0)` for non-negative `ms`. -/
def DateTime.fromMillis (ms : Nat) : DateTime :=
  let days := ms / 86400000
  let rem := ms % 86400000
  let ymd := civilFromDays days
  { year := ymd.1
    month := ymd.2.1
    day := ymd.2.2
    hour := rem / 3600000
    minute := rem % 3600000 / 60000
    second := rem % 60000 / 1000
    microsecond := ms % 1000 * 1000 }

/-- Decimal digits of a natural number. -/
def natToStr (n : Nat) : Str := (Nat.repr n).toList

/-- Decimal digits left-padded with zeros to the given width. -/
def padNat (width n : Nat) : Str :=
  let d := natToStr n
  List.replicate (width - d.length) '0' ++ d

/-- Python `str(datetime)`: `YYYY-MM-DD HH:MM:SS`, plus `.ffffff` when the
microsecond field is nonzero. -/
def DateTime.pyStr (d : DateTime) : Str :=
  padNat 4 d.year ++ ['-'] ++ padNat 2 d.month ++ ['-'] ++ padNat 2 d.day
    ++ [' '] ++ padNat 2 d.hour ++ [':'] ++ padNat 2 d.minute ++ [':']
    ++ padNat 2 d.second
    ++ (if d.microsecond = 0 then [] else ['.'] ++ padNat 6 d.microsecond)

/-- Leading decimal-digit run and the rest. -/
def takeDigits (s : Str) : Str × Str :=
  (s.takeWhile isDecDigitAscii, s.dropWhile isDecDigitAscii)

/-- Value of a plain decimal-digit run. -/
def decVal (s : Str) : Nat :=
  s.foldl (fun acc c => acc * 10 + (c.toNat - '0'.toNat)) 0

/-- `datetime.strptime(value, "%Y-%m-%dT%H:%M:%S.%fZ")`: `some` on success,
`none` on `ValueError`. -/
def strptimeIsoZ (s : Str) : Option DateTime := do
  let (y, s) := takeDigits s
  if y.length = 0 ∨ 4 < y.length then none else
  match s with
  | '-' :: s =>
    let (mo, s) := takeDigits s
    if mo.length = 0 ∨ 2 < mo.length ∨ ¬ (1 ≤ decVal mo ∧ decVal mo ≤ 12) then none else
    match s with
    | '-' :: s =>
      let (d, s) := takeDigits s
      if d.length = 0 ∨ 2 < d.length ∨ ¬ (1 ≤ decVal d ∧ decVal d ≤ 31) then none else
      match s with
      | 'T' :: s =>
        let (h, s) := takeDigits s
        if h.length = 0 ∨ 2 < h.length ∨ ¬ decVal h ≤ 23 then none else
        match s with
        | ':' :: s =>
          let (mi, s) := takeDigits s
          if mi.length = 0 ∨ 2 < mi.length ∨ ¬ decVal mi ≤ 59 then none else
          match s with
          | ':' :: s =>
            let (sec, s) := takeDigits s
            if sec.length = 0 ∨ 2 < sec.length ∨ ¬ decVal sec ≤ 61 then none else
            match s with
            | '.' :: s =>
              let (f, s) := takeDigits s
              if f.length = 0 ∨ 6 < f.length then none else
              match s with
              | ['Z'] =>
                some { year := decVal y, month := decVal mo, day := decVal d,
                       hour := decVal h, minute := decVal mi, second := decVal sec,
                       microsecond := decVal f * 10 ^ (6 - f.length) }
              | _ => none
            | _ => none
          | _ => none
        | _ => none
      | _ => none
    | _ => none
  | _ => none

/-! ## data_types.py: enumerations

The tests require Python 3.10 or newer, and serialization only round-trips on
Python 3.11 or newer, where `f"..."` of an `IntEnum` renders the integer
value; we model that rendering.
-/

inductive ItemType
  | note | folder | setting | resource | tag | note_tag | search | alarm
  | master_key | item_change | note_resource | resource_local_state
  | revision | migration | smart_filter | command
deriving DecidableEq, Repr

def ItemType.toNat : ItemType → Nat
  | .note => 1 | .folder => 2 | .setting => 3 | .resource => 4 | .tag => 5
  | .note_tag => 6 | .search => 7 | .alarm => 8 | .master_key => 9
  | .item_change => 10 | .note_resource => 11 | .resource_local_state => 12
  | .revision => 13 | .migration => 14 | .smart_filter => 15 | .command => 16

/-- `ItemType(n)`: `none` models the `ValueError` for an unknown value. -/
def ItemType.ofInt : Int → Option ItemType
  | 1 => some .note | 2 => some .folder | 3 => some .setting
  | 4 => some .resource | 5 => some .tag | 6 => some .note_tag
  | 7 => some .search | 8 => some .alarm | 9 => some .master_key
  | 10 => some .item_change | 11 => some .note_resource
  | 12 => some .resource_local_state | 13 => some .revision
  | 14 => some .migration | 15 => some .smart_filter | 16 => some .command
  | _ => none

inductive MarkupLanguage
  | markdown | html
deriving DecidableEq, Repr

def MarkupLanguage.toNat : MarkupLanguage → Nat
  | .markdown => 1
  | .html => 2

def MarkupLanguage.ofInt : Int → Option MarkupLanguage
  | 1 => some .markdown
  | 2 => some .html
  | _ => none

/-- Python 3.11 `f"..."` rendering of an `IntEnum` member. -/
def ItemType.pyStr (t : ItemType) : Str := natToStr t.toNat

def MarkupLanguage.pyStr (m : MarkupLanguage) : Str := natToStr m.toNat

/-- Python `str(bool)`. -/
def pyStrBool (b : Bool) : Str :=
  if b then "True".toList else "False".toList

/-- A Python float, modelled by its `repr` string.  The float-typed record
fields (latitude, longitude) are carried through the codec but no claim
computes with them; `float(value)` is modelled by `pyFloatOfStr` below. -/
structure PyFloat where
  val : Str
deriving DecidableEq, Repr

/-- Numeric value of a decimal float literal (sign, digits, optional
fraction); `none` models the `ValueError` of `float(value)` for other
strings.  Exponent and special forms are outside the inputs this codec
produces.  `float` applies the same decimal-and-whitespace transform as
`int` before parsing. -/
def parseFloatQ (s : Str) : Option Rat :=
  let t0 := pyStrip (s.map pyToAscii)
  let neg := match t0 with
    | c :: _ => c == '-'
    | [] => false
  let t := dropSign t0
  let (ip, rest) := takeDigits t
  match rest with
  | [] =>
    if ip = [] then none
    else some ((if neg then -1 else 1) * (decVal ip : Rat))
  | '.' :: frac =>
    let (fp, rest2) := takeDigits frac
    if rest2 ≠ [] ∨ (ip = [] ∧ fp = []) then none
    else
      some ((if neg then -1 else 1) *
        ((decVal ip : Rat) + (decVal fp : Rat) / (10 ^ fp.length : Nat)))
  | _ => none

/-- `float(value)` as used by the latitude/longitude cast: parse for
validation, keep the original repr. -/
def pyFloatOfStr (s : Str) : Option (PyFloat × Rat) :=
  (parseFloatQ s).map (fun q => (⟨s⟩, q))

/-! ## data_types.py: entity records

Each dataclass is modelled with its fields in declaration order (`type_`
first, inherited from `BaseData`).  Field types reflect what
`__post_init__` actually stores at runtime when constructed from the wire
format: fields with a cast branch get the cast target type, all other fields
keep the raw string.
-/

structure NoteData where
  type_ : Option ItemType := none
  id : Option Str := none
  parent_id : Option Str := none
  title : Option Str := none
  body : Option Str := none
  created_time : Option DateTime := none
  updated_time : Option DateTime := none
  is_conflict : Option Bool := none
  latitude : Option PyFloat := none
  longitude : Option PyFloat := none
  altitude : Option Str := none
  author : Option Str := none
  source_url : Option Str := none
  is_todo : Option Bool := none
  todo_due : Option DateTime := none
  todo_completed : Option DateTime := none
  source : Option Str := none
  source_application : Option Str := none
  application_data : Option Str := none
  order : Option Str := none
  user_created_time : Option DateTime := none
  user_updated_time : Option DateTime := none
  encryption_cipher_text : Option Str := none
  encryption_applied : Option Bool := none
  markup_language : Option MarkupLanguage := none
  is_shared : Option Bool := none
  share_id : Option Str := none
  conflict_original_id : Option Str := none
  master_key_id : Option Str := none
  user_data : Option Str := none
  deleted_time : Option DateTime := none
  body_html : Option Str := none
  base_url : Option Str := none
  image_data_url : Option Str := none
  crop_rect : Option Str := none
deriving DecidableEq, Repr

structure NotebookData where
  type_ : Option ItemType := none
  id : Option Str := none
  title : Option Str := none
  created_time : Option DateTime := none
  updated_time : Option DateTime := none
  user_created_time : Option DateTime := none
  user_updated_time : Option DateTime := none
  encryption_cipher_text : Option Str := none
  encryption_applied : Option Bool := none
  parent_id : Option Str := none
  is_shared : Option Bool := none
  share_id : Option Str := none
  master_key_id : Option Str := none
  icon : Option Str := none
  user_data : Option Str := none
  deleted_time : Option DateTime := none
deriving DecidableEq, Repr

structure ResourceData where
  type_ : Option ItemType := none
  id : Option Str := none
  title : Option Str := none
  mime : Option Str := none
  filename : Option Str := none
  created_time : Option DateTime := none
  updated_time : Option DateTime := none
  user_created_time : Option DateTime := none
  user_updated_time : Option DateTime := none
  file_extension : Option Str := none
  encryption_cipher_text : Option Str := none
  encryption_applied : Option Bool := none
  encryption_blob_encrypted : Option Bool := none
  size : Option Str := none
  is_shared : Option Bool := none
  share_id : Option Str := none
  master_key_id : Option Str := none
  user_data : Option Str := none
  blob_updated_time : Option DateTime := none
  ocr_text : Option Str := none
  ocr_details : Option Str := none
  ocr_status : Option Str := none
  ocr_error : Option Str := none
deriving DecidableEq, Repr

structure TagData where
  type_ : Option ItemType := none
  id : Option Str := none
  title : Option Str := none
  created_time : Option DateTime := none
  updated_time : Option DateTime := none
  user_created_time : Option DateTime := none
  user_updated_time : Option DateTime := none
  encryption_cipher_text : Option Str := none
  encryption_applied : Option Bool := none
  is_shared : Option Bool := none
  parent_id : Option Str := none
  user_data : Option Str := none
deriving DecidableEq, Repr

structure NoteTagData where
  type_ : Option ItemType := none
  id : Option Str := none
  note_id : Option Str := none
  tag_id : Option Str := none
  created_time : Option DateTime := none
  updated_time : Option DateTime := none
  user_created_time : Option DateTime := none
  user_updated_time : Option DateTime := none
  encryption_cipher_text : Option Str := none
  encryption_applied : Option Bool := none
  is_shared : Option Bool := none
deriving DecidableEq, Repr

/-- Sum of the record kinds `deserialize` can produce (`RevisionData` and the
other item types yield `None` and are not constructed). -/
inductive AnyData
  | note : NoteData → AnyData
  | notebook : NotebookData → AnyData
  | resource : ResourceData → AnyData
  | tag : TagData → AnyData
  | noteTag : NoteTagData → AnyData
deriving DecidableEq, Repr

instance {e a : Type} [DecidableEq e] [DecidableEq a] :
    DecidableEq (Except e a) := fun x y =>
  match x, y with
  | .error e1, .error e2 =>
    decidable_of_iff (e1 = e2)
      ⟨by rintro rfl; rfl, by intro h; cases h; rfl⟩
  | .error _, .ok _ => isFalse (by intro h; cases h)
  | .ok _, .error _ => isFalse (by intro h; cases h)
  | .ok v1, .ok v2 =>
    decidable_of_iff (v1 = v2)
      ⟨by rintro rfl; rfl, by intro h; cases h; rfl⟩

/-! ### Keyword-argument dictionaries

`deserialize` builds a `dict` of string keys and string values and passes it
as `**metadata`.  Insertion overwrites an existing key in place.
-/

abbrev Dict := List (Str × Str)

def dinsert (k v : Str) : Dict → Dict
  | [] => [(k, v)]
  | (k0, v0) :: rest => if k0 = k then (k, v) :: rest else (k0, v0) :: dinsert k v rest

def dget (k : Str) : Dict → Option Str
  | [] => none
  | (k0, v0) :: rest => if k0 = k then some v0 else dget k rest

/-! ### `BaseData.__post_init__` field casts, for string-valued kwargs -/

/-- Cast of the id-like fields: a nonempty string must satisfy
`is_id_valid`; the empty string is exempt ("no parent"). -/
def castIdField : Option Str → Except String (Option Str)
  | none => .ok none
  | some v =>
    if v ≠ [] ∧ ¬ is_id_valid v then .error "ValueError: Invalid ID"
    else .ok (some v)

/-- Cast of the `_time`-suffixed fields: `int(value)` milliseconds, where `0`
means absent; on `ValueError` fall back to `strptime` with
`"%Y-%m-%dT%H:%M:%S.%fZ"`. -/
def castTimeField : Option Str → Except String (Option DateTime)
  | none => .ok none
  | some v =>
    match pyIntBase10 v with
    | some n => .ok (if n = 0 then none else some (DateTime.fromMillis n.toNat))
    | none =>
      match strptimeIsoZ v with
      | some d => .ok (some d)
      | none => .error "ValueError: time data does not match the format"

/-- Cast of the flag fields: `bool(int(value))`. -/
def castBoolField : Option Str → Except String (Option Bool)
  | none => .ok none
  | some v =>
    match pyIntBase10 v with
    | some n => .ok (some (n != 0))
    | none => .error "ValueError: invalid literal for int"

/-- Cast of `latitude`: `float(value)`, must lie in [-90, 90]. -/
def castLatitudeField : Option Str → Except String (Option PyFloat)
  | none => .ok none
  | some v =>
    match pyFloatOfStr v with
    | some (f, q) =>
      if -90 ≤ q ∧ q ≤ 90 then .ok (some f) else .error "ValueError: Invalid latitude"
    | none => .error "ValueError: could not convert string to float"

/-- Cast of `longitude`: `float(value)`, must lie in [-180, 180]. -/
def castLongitudeField : Option Str → Except String (Option PyFloat)
  | none => .ok none
  | some v =>
    match pyFloatOfStr v with
    | some (f, q) =>
      if -180 ≤ q ∧ q ≤ 180 then .ok (some f) else .error "ValueError: Invalid longitude"
    | none => .error "ValueError: could not convert string to float"

/-- Cast of `markup_language`: `MarkupLanguage(int(value))`. -/
def castMarkupField : Option Str → Except String (Option MarkupLanguage)
  | none => .ok none
  | some v =>
    match pyIntBase10 v with
    | some n =>
      match MarkupLanguage.ofInt n with
      | some m => .ok (some m)
      | none => .error "ValueError: not a valid MarkupLanguage"
    | none => .error "ValueError: invalid literal for int"

/-- Cast of `item_type` and `type_`: `ItemType(int(value))`. -/
def castItemTypeField : Option Str → Except String (Option ItemType)
  | none => .ok none
  | some v =>
    match pyIntBase10 v with
    | some n =>
      match ItemType.ofInt n with
      | some t => .ok (some t)
      | none => .error "ValueError: not a valid ItemType"
    | none => .error "ValueError: invalid literal for int"

/-- The encrypted-payload rejection at the top of `__post_init__`. -/
def checkNotEncrypted (d : Dict) : Except String Unit :=
  match dget "encryption_applied".toList d with
  | none => .ok ()
  | some v =>
    match pyIntBase10 v with
    | some n =>
      if n != 0 then .error "NotImplementedError: Encryption is not supported"
      else .ok ()
    | none => .error "ValueError: invalid literal for int"

/-- `TypeError` check: every kwarg must name a declared field. -/
def checkKnownKeys (known : List String) (d : Dict) : Except String Unit :=
  if d.all (fun kv => known.any (fun k => k.toList = kv.1)) then .ok ()
  else .error "TypeError: unexpected keyword argument"

def noteFieldNames : List String :=
  ["type_", "id", "parent_id", "title", "body", "created_time", "updated_time",
   "is_conflict", "latitude", "longitude", "altitude", "author", "source_url",
   "is_todo", "todo_due", "todo_completed", "source", "source_application",
   "application_data", "order", "user_created_time", "user_updated_time",
   "encryption_cipher_text", "encryption_applied", "markup_language",
   "is_shared", "share_id", "conflict_original_id", "master_key_id",
   "user_data", "deleted_time", "body_html", "base_url", "image_data_url",
   "crop_rect"]

/-- `dt.NoteData(**kwargs)` for string-valued kwargs, including
`__post_init__`. -/
def mkNoteDataOfKwargs (d : Dict) : Except String NoteData := do
  let () ← checkKnownKeys noteFieldNames d
  let () ← checkNotEncrypted d
  let type_ ← castItemTypeField (dget "type_".toList d)
  let id ← castIdField (dget "id".toList d)
  let parent_id ← castIdField (dget "parent_id".toList d)
  let created_time ← castTimeField (dget "created_time".toList d)
  let updated_time ← castTimeField (dget "updated_time".toList d)
  let is_conflict ← castBoolField (dget "is_conflict".toList d)
  let latitude ← castLatitudeField (dget "latitude".toList d)
  let longitude ← castLongitudeField (dget "longitude".toList d)
  let is_todo ← castBoolField (dget "is_todo".toList d)
  let todo_due ← castTimeField (dget "todo_due".toList d)
  let todo_completed ← castTimeField (dget "todo_completed".toList d)
  let user_created_time ← castTimeField (dget "user_created_time".toList d)
  let user_updated_time ← castTimeField (dget "user_updated_time".toList d)
  let encryption_applied ← castBoolField (dget "encryption_applied".toList d)
  let markup_language ← castMarkupField (dget "markup_language".toList d)
  let is_shared ← castBoolField (dget "is_shared".toList d)
  let share_id ← castIdField (dget "share_id".toList d)
  let conflict_original_id ← castIdField (dget "conflict_original_id".toList d)
  let master_key_id ← castIdField (dget "master_key_id".toList d)
  let deleted_time ← castTimeField (dget "deleted_time".toList d)
  .ok { type_ := type_, id := id, parent_id := parent_id,
        title := dget "title".toList d, body := dget "body".toList d,
        created_time := created_time, updated_time := updated_time,
        is_conflict := is_conflict, latitude := latitude,
        longitude := longitude, altitude := dget "altitude".toList d,
        author := dget "author".toList d,
        source_url := dget "source_url".toList d, is_todo := is_todo,
        todo_due := todo_due, todo_completed := todo_completed,
        source := dget "source".toList d,
        source_application := dget "source_application".toList d,
        application_data := dget "application_data".toList d,
        order := dget "order".toList d,
        user_created_time := user_created_time,
        user_updated_time := user_updated_time,
        encryption_cipher_text := dget "encryption_cipher_text".toList d,
        encryption_applied := encryption_applied,
        markup_language := markup_language, is_shared := is_shared,
        share_id := share_id, conflict_original_id := conflict_original_id,
        master_key_id := master_key_id,
        user_data := dget "user_data".toList d, deleted_time := deleted_time,
        body_html := dget "body_html".toList d,
        base_url := dget "base_url".toList d,
        image_data_url := dget "image_data_url".toList d,
        crop_rect := dget "crop_rect".toList d }

def notebookFieldNames : List String :=
  ["type_", "id", "title", "created_time", "updated_time", "user_created_time",
   "user_updated_time", "encryption_cipher_text", "encryption_applied",
   "parent_id", "is_shared", "share_id", "master_key_id", "icon", "user_data",
   "deleted_time"]

/-- `dt.NotebookData(**kwargs)` for string-valued kwargs. -/
def mkNotebookDataOfKwargs (d : Dict) : Except String NotebookData := do
  let () ← checkKnownKeys notebookFieldNames d
  let () ← checkNotEncrypted d
  let type_ ← castItemTypeField (dget "type_".toList d)
  let id ← castIdField (dget "id".toList d)
  let created_time ← castTimeField (dget "created_time".toList d)
  let updated_time ← castTimeField (dget "updated_time".toList d)
  let user_created_time ← castTimeField (dget "user_created_time".toList d)
  let user_updated_time ← castTimeField (dget "user_updated_time".toList d)
  let encryption_applied ← castBoolField (dget "encryption_applied".toList d)
  let parent_id ← castIdField (dget "parent_id".toList d)
  let is_shared ← castBoolField (dget "is_shared".toList d)
  let share_id ← castIdField (dget "share_id".toList d)
  let master_key_id ← castIdField (dget "master_key_id".toList d)
  let deleted_time ← castTimeField (dget "deleted_time".toList d)
  .ok { type_ := type_, id := id, title := dget "title".toList d,
        created_time := created_time, updated_time := updated_time,
        user_created_time := user_created_time,
        user_updated_time := user_updated_time,
        encryption_cipher_text := dget "encryption_cipher_text".toList d,
        encryption_applied := encryption_applied, parent_id := parent_id,
        is_shared := is_shared, share_id := share_id,
        master_key_id := master_key_id, icon := dget "icon".toList d,
        user_data := dget "user_data".toList d, deleted_time := deleted_time }

def resourceFieldNames : List String :=
  ["type_", "id", "title", "mime", "filename", "created_time", "updated_time",
   "user_created_time", "user_updated_time", "file_extension",
   "encryption_cipher_text", "encryption_applied", "encryption_blob_encrypted",
   "size", "is_shared", "share_id", "master_key_id", "user_data",
   "blob_updated_time", "ocr_text", "ocr_details", "ocr_status", "ocr_error"]

/-- `dt.ResourceData(**kwargs)` for string-valued kwargs. -/
def mkResourceDataOfKwargs (d : Dict) : Except String ResourceData := do
  let () ← checkKnownKeys resourceFieldNames d
  let () ← checkNotEncrypted d
  let type_ ← castItemTypeField (dget "type_".toList d)
  let id ← castIdField (dget "id".toList d)
  let created_time ← castTimeField (dget "created_time".toList d)
  let updated_time ← castTimeField (dget "updated_time".toList d)
  let user_created_time ← castTimeField (dget "user_created_time".toList d)
  let user_updated_time ← castTimeField (dget "user_updated_time".toList d)
  let encryption_applied ← castBoolField (dget "encryption_applied".toList d)
  let encryption_blob_encrypted ←
    castBoolField (dget "encryption_blob_encrypted".toList d)
  let is_shared ← castBoolField (dget "is_shared".toList d)
  let share_id ← castIdField (dget "share_id".toList d)
  let master_key_id ← castIdField (dget "master_key_id".toList d)
  let blob_updated_time ← castTimeField (dget "blob_updated_time".toList d)
  .ok { type_ := type_, id := id, title := dget "title".toList d,
        mime := dget "mime".toList d, filename := dget "filename".toList d,
        created_time := created_time, updated_time := updated_time,
        user_created_time := user_created_time,
        user_updated_time := user_updated_time,
        file_extension := dget "file_extension".toList d,
        encryption_cipher_text := dget "encryption_cipher_text".toList d,
        encryption_applied := encryption_applied,
        encryption_blob_encrypted := encryption_blob_encrypted,
        size := dget "size".toList d, is_shared := is_shared,
        share_id := share_id, master_key_id := master_key_id,
        user_data := dget "user_data".toList d,
        blob_updated_time := blob_updated_time,
        ocr_text := dget "ocr_text".toList d,
        ocr_details := dget "ocr_details".toList d,
        ocr_status := dget "ocr_status".toList d,
        ocr_error := dget "ocr_error".toList d }

def tagFieldNames : List String :=
  ["type_", "id", "title", "created_time", "updated_time", "user_created_time",
   "user_updated_time", "encryption_cipher_text", "encryption_applied",
   "is_shared", "parent_id", "user_data"]

/-- `dt.TagData(**kwargs)` for string-valued kwargs. -/
def mkTagDataOfKwargs (d : Dict) : Except String TagData := do
  let () ← checkKnownKeys tagFieldNames d
  let () ← checkNotEncrypted d
  let type_ ← castItemTypeField (dget "type_".toList d)
  let id ← castIdField (dget "id".toList d)
  let created_time ← castTimeField (dget "created_time".toList d)
  let updated_time ← castTimeField (dget "updated_time".toList d)
  let user_created_time ← castTimeField (dget "user_created_time".toList d)
  let user_updated_time ← castTimeField (dget "user_updated_time".toList d)
  let encryption_applied ← castBoolField (dget "encryption_applied".toList d)
  let is_shared ← castBoolField (dget "is_shared".toList d)
  let parent_id ← castIdField (dget "parent_id".toList d)
  .ok { type_ := type_, id := id, title := dget "title".toList d,
        created_time := created_time, updated_time := updated_time,
        user_created_time := user_created_time,
        user_updated_time := user_updated_time,
        encryption_cipher_text := dget "encryption_cipher_text".toList d,
        encryption_applied := encryption_applied, is_shared := is_shared,
        parent_id := parent_id, user_data := dget "user_data".toList d }

def noteTagFieldNames : List String :=
  ["type_", "id", "note_id", "tag_id", "created_time", "updated_time",
   "user_created_time", "user_updated_time", "encryption_cipher_text",
   "encryption_applied", "is_shared"]

/-- `dt.NoteTagData(**kwargs)` for string-valued kwargs.  Note that `note_id`
and `tag_id` are not in the id-validated field list of `__post_init__`. -/
def mkNoteTagDataOfKwargs (d : Dict) : Except String NoteTagData := do
  let () ← checkKnownKeys noteTagFieldNames d
  let () ← checkNotEncrypted d
  let type_ ← castItemTypeField (dget "type_".toList d)
  let id ← castIdField (dget "id".toList d)
  let created_time ← castTimeField (dget "created_time".toList d)
  let updated_time ← castTimeField (dget "updated_time".toList d)
  let user_created_time ← castTimeField (dget "user_created_time".toList d)
  let user_updated_time ← castTimeField (dget "user_updated_time".toList d)
  let encryption_applied ← castBoolField (dget "encryption_applied".toList d)
  let is_shared ← castBoolField (dget "is_shared".toList d)
  .ok { type_ := type_, id := id, note_id := dget "note_id".toList d,
        tag_id := dget "tag_id".toList d, created_time := created_time,
        updated_time := updated_time,
        user_created_time := user_created_time,
        user_updated_time := user_updated_time,
        encryption_cipher_text := dget "encryption_cipher_text".toList d,
        encryption_applied := encryption_applied, is_shared := is_shared }

/-! ## data_types.py: serialization

Each `serialize` walks the dataclass fields in declaration order and emits
`key: value` lines, with title (and body, for notes) as leading
double-newline-separated sections.  Synthesized defaults are written back
onto the record; the fresh uuid4 hex used for a missing id is passed in as a
parameter (`freshId`).  Python additionally assigns `self.item_type`, which
is not a dataclass field and affects neither `fields(self)` nor the output,
so it does not appear in the returned record.

Rendering of values follows Python 3.11 f-strings: strings verbatim,
datetimes via `str(datetime)`, booleans as `True`/`False`, `IntEnum` members
as their integer value, floats via their repr.
-/

/-- One `key: value` metadata line. -/
def lineStr (name : String) (v : Str) : Str :=
  name.toList ++ ": ".toList ++ v

def optLineStr (name : String) : Option Str → List Str
  | none => []
  | some v => [lineStr name v]

def optLineTime (name : String) : Option DateTime → List Str
  | none => []
  | some d => [lineStr name d.pyStr]

def optLineBool (name : String) : Option Bool → List Str
  | none => []
  | some b => [lineStr name (pyStrBool b)]

def optLineFloat (name : String) : Option PyFloat → List Str
  | none => []
  | some f => [lineStr name f.val]

/-- `updated_time` is required even when empty. -/
def updatedTimeLine (v : Option DateTime) : Str :=
  lineStr "updated_time" (match v with | none => [] | some d => d.pyStr)

def NoteData.serialize (r0 : NoteData) (freshId : Str) : Str × NoteData :=
  -- ID is always required; a missing one is filled with a fresh uuid4 hex
  let r1 : NoteData := if r0.id = none then { r0 with id := some freshId } else r0
  -- markup_language is required to get an editable note
  let r2 : NoteData :=
    if r1.markup_language = none then { r1 with markup_language := some .markdown }
    else r1
  let r3 : NoteData :=
    if r2.source_application = none then
      { r2 with source_application := some "joppy".toList }
    else r2
  -- the title line is always emitted, even when empty, to prevent problems
  -- with bodies that start with a newline
  let lines : List Str :=
    [r3.title.getD [], []]
    ++ (match r3.body with
        | some b => [b, []]
        | none => [])
    ++ [lineStr "type_" (ItemType.pyStr .note)]
    ++ [lineStr "id" (r3.id.getD freshId)]
    ++ optLineStr "parent_id" r3.parent_id
    ++ optLineTime "created_time" r3.created_time
    ++ [updatedTimeLine r3.updated_time]
    ++ optLineBool "is_conflict" r3.is_conflict
    ++ optLineFloat "latitude" r3.latitude
    ++ optLineFloat "longitude" r3.longitude
    ++ optLineStr "altitude" r3.altitude
    ++ optLineStr "author" r3.author
    ++ optLineStr "source_url" r3.source_url
    ++ optLineBool "is_todo" r3.is_todo
    ++ optLineTime "todo_due" r3.todo_due
    ++ optLineTime "todo_completed" r3.todo_completed
    ++ optLineStr "source" r3.source
    ++ [lineStr "source_application" (r3.source_application.getD [])]
    ++ optLineStr "application_data" r3.application_data
    ++ optLineStr "order" r3.order
    ++ optLineTime "user_created_time" r3.user_created_time
    ++ optLineTime "user_updated_time" r3.user_updated_time
    ++ optLineStr "encryption_cipher_text" r3.encryption_cipher_text
    ++ optLineBool "encryption_applied" r3.encryption_applied
    ++ [lineStr "markup_language"
        (MarkupLanguage.pyStr (r3.markup_language.getD .markdown))]
    ++ optLineBool "is_shared" r3.is_shared
    ++ optLineStr "share_id" r3.share_id
    ++ optLineStr "conflict_original_id" r3.conflict_original_id
    ++ optLineStr "master_key_id" r3.master_key_id
    ++ optLineStr "user_data" r3.user_data
    ++ optLineTime "deleted_time" r3.deleted_time
    ++ optLineStr "body_html" r3.body_html
    ++ optLineStr "base_url" r3.base_url
    ++ optLineStr "image_data_url" r3.image_data_url
    ++ optLineStr "crop_rect" r3.crop_rect
  (joinNl lines, r3)

def NotebookData.serialize (r0 : NotebookData) (freshId : Str) :
    Str × NotebookData :=
  let r1 : NotebookData := if r0.id = none then { r0 with id := some freshId } else r0
  let lines : List Str :=
    (match r1.title with
     | some t => [t, []]
     | none => [])
    ++ [lineStr "type_" (ItemType.pyStr .folder)]
    ++ [lineStr "id" (r1.id.getD freshId)]
    ++ optLineTime "created_time" r1.created_time
    ++ [updatedTimeLine r1.updated_time]
    ++ optLineTime "user_created_time" r1.user_created_time
    ++ optLineTime "user_updated_time" r1.user_updated_time
    ++ optLineStr "encryption_cipher_text" r1.encryption_cipher_text
    ++ optLineBool "encryption_applied" r1.encryption_applied
    ++ optLineStr "parent_id" r1.parent_id
    ++ optLineBool "is_shared" r1.is_shared
    ++ optLineStr "share_id" r1.share_id
    ++ optLineStr "master_key_id" r1.master_key_id
    ++ optLineStr "icon" r1.icon
    ++ optLineStr "user_data" r1.user_data
    ++ optLineTime "deleted_time" r1.deleted_time
  (joinNl lines, r1)

/-- Modelled subset of the Python `mimetypes` extension table, as used by
`mimetypes.guess_type(filename)`: the lowercased extension of the final path
component is looked up; unknown extensions give `none`. -/
def guess_type (filename : Str) : Option Str :=
  let base := match lastIdx ['/'] filename with
    | some i => filename.drop (i + 1)
    | none => filename
  -- os.path.splitext ignores leading dots of the base name
  let stripped := base.dropWhile (fun c => c = '.')
  let ext := match lastIdx ['.'] stripped with
    | some i => stripped.drop i
    | none => []
  let extLower := ext.map Char.toLower
  if extLower = ".png".toList then some "image/png".toList
  else if extLower = ".jpg".toList then some "image/jpeg".toList
  else if extLower = ".jpeg".toList then some "image/jpeg".toList
  else if extLower = ".gif".toList then some "image/gif".toList
  else if extLower = ".txt".toList then some "text/plain".toList
  else if extLower = ".pdf".toList then some "application/pdf".toList
  else if extLower = ".json".toList then some "application/json".toList
  else none

def ResourceData.serialize (r0 : ResourceData) (freshId : Str) :
    Str × ResourceData :=
  let r1 : ResourceData := if r0.id = none then { r0 with id := some freshId } else r0
  -- mime is always required: guessed from the filename, with
  -- application/octet-stream as the fallback
  let r2 : ResourceData :=
    if r1.mime = none then
      { r1 with mime := some ((guess_type (r1.filename.getD [])).getD
          "application/octet-stream".toList) }
    else r1
  let lines : List Str :=
    (match r2.title with
     | some t => [t, []]
     | none => [])
    ++ [lineStr "type_" (ItemType.pyStr .resource)]
    ++ [lineStr "id" (r2.id.getD freshId)]
    ++ [lineStr "mime" (r2.mime.getD [])]
    ++ optLineStr "filename" r2.filename
    ++ optLineTime "created_time" r2.created_time
    ++ [updatedTimeLine r2.updated_time]
    ++ optLineTime "user_created_time" r2.user_created_time
    ++ optLineTime "user_updated_time" r2.user_updated_time
    ++ optLineStr "file_extension" r2.file_extension
    ++ optLineStr "encryption_cipher_text" r2.encryption_cipher_text
    ++ optLineBool "encryption_applied" r2.encryption_applied
    ++ optLineBool "encryption_blob_encrypted" r2.encryption_blob_encrypted
    ++ optLineStr "size" r2.size
    ++ optLineBool "is_shared" r2.is_shared
    ++ optLineStr "share_id" r2.share_id
    ++ optLineStr "master_key_id" r2.master_key_id
    ++ optLineStr "user_data" r2.user_data
    ++ optLineTime "blob_updated_time" r2.blob_updated_time
    ++ optLineStr "ocr_text" r2.ocr_text
    ++ optLineStr "ocr_details" r2.ocr_details
    ++ optLineStr "ocr_status" r2.ocr_status
    ++ optLineStr "ocr_error" r2.ocr_error
  (joinNl lines, r2)

def TagData.serialize (r0 : TagData) (freshId : Str) : Str × TagData :=
  let r1 : TagData := if r0.id = none then { r0 with id := some freshId } else r0
  let lines : List Str :=
    (match r1.title with
     | some t => [t, []]
     | none => [])
    ++ [lineStr "type_" (ItemType.pyStr .tag)]
    ++ [lineStr "id" (r1.id.getD freshId)]
    ++ optLineTime "created_time" r1.created_time
    ++ [updatedTimeLine r1.updated_time]
    ++ optLineTime "user_created_time" r1.user_created_time
    ++ optLineTime "user_updated_time" r1.user_updated_time
    ++ optLineStr "encryption_cipher_text" r1.encryption_cipher_text
    ++ optLineBool "encryption_applied" r1.encryption_applied
    ++ optLineBool "is_shared" r1.is_shared
    ++ optLineStr "parent_id" r1.parent_id
    ++ optLineStr "user_data" r1.user_data
  (joinNl lines, r1)

def NoteTagData.serialize (r0 : NoteTagData) (freshId : Str) :
    Str × NoteTagData :=
  let r1 : NoteTagData := if r0.id = none then { r0 with id := some freshId } else r0
  let lines : List Str :=
    [lineStr "type_" (ItemType.pyStr .note_tag)]
    ++ [lineStr "id" (r1.id.getD freshId)]
    ++ optLineStr "note_id" r1.note_id
    ++ optLineStr "tag_id" r1.tag_id
    ++ optLineTime "created_time" r1.created_time
    ++ [updatedTimeLine r1.updated_time]
    ++ optLineTime "user_created_time" r1.user_created_time
    ++ optLineTime "user_updated_time" r1.user_updated_time
    ++ optLineStr "encryption_cipher_text" r1.encryption_cipher_text
    ++ optLineBool "encryption_applied" r1.encryption_applied
    ++ optLineBool "is_shared" r1.is_shared
  (joinNl lines, r1)

/-! ## server_api.py: deserialize -/

/-- The section split of `deserialize` (server_api.py, lines 39-55): split
off the metadata block at the last double newline, then split the remainder
at the first double newline into title and body. -/
def deserializeSections (body : Str) : Option Str × Option Str × Str :=
  let metadata_splitted := rsplitOnce nn body
  match metadata_splitted.2 with
  | none =>
    -- metadata only
    (none, none, metadata_splitted.1)
  | some meta =>
    let title_splitted := splitOnce nn metadata_splitted.1
    match title_splitted.2 with
    | none =>
      -- title + metadata
      (some title_splitted.1, none, meta)
    | some note_body =>
      -- title + body + metadata
      (some title_splitted.1, some note_body, meta)

/-- `extract_metadata`: parse `key: value` lines into a dict, dropping keys
with empty values.  A line without `": "` raises `ValueError` (the unpacking
of `line.split(": ", 1)` fails). -/
def extract_metadata (serialized_metadata : Str) : Except String Dict :=
  (splitNl serialized_metadata).foldlM
    (fun d line =>
      match splitOnce [':', ' '] line with
      | (_, none) => .error "ValueError: not enough values to unpack"
      | (key, some value) =>
        if value = [] then .ok d else .ok (dinsert key value d))
    []

/-- `server_api.deserialize`: `.ok (some _)` is a constructed record,
`.ok none` models Python returning `None` (revisions and the other known
item types), `.error` a raised exception. -/
def deserialize (body : Str) : Except String (Option AnyData) := do
  let (title, note_body, metaStr) := deserializeSections body
  let metadata ← extract_metadata metaStr
  let metadata := match title with
    | some t => dinsert "title".toList t metadata
    | none => metadata
  let metadata := match note_body with
    | some b => dinsert "body".toList b metadata
    | none => metadata
  let typeVal ← match dget "type_".toList metadata with
    | some v => pure v
    | none => .error "KeyError: type_"
  let n ← match pyIntBase10 typeVal with
    | some n => pure n
    | none => .error "ValueError: invalid literal for int"
  let item_type ← match ItemType.ofInt n with
    | some t => pure t
    | none => .error "ValueError: not a valid ItemType"
  match item_type with
  | .note => do
    let r ← mkNoteDataOfKwargs metadata
    .ok (some (.note r))
  | .folder => do
    let r ← mkNotebookDataOfKwargs metadata
    .ok (some (.notebook r))
  | .resource => do
    let r ← mkResourceDataOfKwargs metadata
    .ok (some (.resource r))
  | .tag => do
    let r ← mkTagDataOfKwargs metadata
    .ok (some (.tag r))
  | .note_tag => do
    let r ← mkNoteTagDataOfKwargs metadata
    .ok (some (.noteTag r))
  | .revision =>
    -- ignore revisions for now
    .ok none
  | _ =>
    -- the TODO print branch, followed by `return None`
    .ok none

/-! ## tools.py: unpagination -/

/-- `dt.DataList`: paginated response envelope. -/
structure DataList (α : Type) where
  has_more : Bool
  cursor : Option Int := none
  items : List α := []

/-- Loop of `tools._unpaginate`: while the last response has more data,
increment the one-based page number, fetch, and append.  The calls pass the
page as a query parameter; we model the fetch as a function of that page
number (the first call omits it, which the server treats as page 1).
`fuel` bounds the unbounded Python `while`; every theorem below supplies
enough fuel to reach the page with `has_more = false`. -/
def unpaginateLoop (fetch : Nat → DataList α) :
    List α → Nat → Bool → Nat → List α
  | items, _, _, 0 => items
  | items, page, hasMore, fuel + 1 =>
    if hasMore then
      let page := page + 1
      let response := fetch page
      unpaginateLoop fetch (items ++ response.items) page response.has_more fuel
    else items

/-- `tools._unpaginate`. -/
def unpaginate (fetch : Nat → DataList α) (fuel : Nat) : List α :=
  let response := fetch 1
  unpaginateLoop fetch response.items 1 response.has_more fuel

/-! ## server_api.py: path suffixes (pathlib model)

`add_suffix` and `remove_suffix` call
`str(pathlib.Path(string).with_suffix(suffix))`.  We model CPython 3.11
`PurePosixPath`: the path is normalized into a root and nonempty components
(`.` components dropped), `name` is the last component, `suffix` the part of
the name from its last dot, when that dot is neither leading nor trailing.
`with_suffix` raises `ValueError` (modelled as `none`) when the name is
empty.
-/

/-- Python `s.split("/")`. -/
def splitSlash : Str → List Str
  | [] => [[]]
  | c :: cs =>
    if c = '/' then [] :: splitSlash cs
    else
      match splitSlash cs with
      | [] => [[c]]
      | l :: ls => (c :: l) :: ls

/-- Normalized path components: empty and `.` components are dropped. -/
def pathComponents (s : Str) : List Str :=
  (splitSlash s).filter (fun comp => comp ≠ [] ∧ comp ≠ ['.'])

/-- The root of a POSIX path: `//` (exactly two leading slashes), `/`, or
empty. -/
def pathRoot (s : Str) : Str :=
  if "//".toList.isPrefixOf s ∧ ¬ "///".toList.isPrefixOf s then "//".toList
  else if "/".toList.isPrefixOf s then "/".toList
  else []

/-- `str()` of the parsed path. -/
def pathStr (root : Str) (parts : List Str) : Str :=
  match parts with
  | [] => if root = [] then ['.'] else root
  | l :: ls => root ++ joinWith l ls
where
  /-- components joined with `/`. -/
  joinWith (l : Str) : List Str → Str
    | [] => l
    | l2 :: ls => l ++ '/' :: joinWith l2 ls

/-- `PurePath.suffix` of a file name: from the last dot, when that dot is
neither the first nor the last character. -/
def nameSuffix (name : Str) : Str :=
  match lastIdx ['.'] name with
  | some i => if 0 < i ∧ i < name.length - 1 then name.drop i else []
  | none => []

/-- `pathlib.Path(s).with_suffix(suffix)` for a valid suffix argument
(`".md"` or `""`); `none` models the `ValueError` for paths with an empty
name. -/
def withSuffix (s suffix : Str) : Option Str :=
  let root := pathRoot s
  let parts := pathComponents s
  match parts.getLast? with
  | none => none
  | some name =>
    let old := nameSuffix name
    let newName := name.take (name.length - old.length) ++ suffix
    some (pathStr root (parts.dropLast ++ [newName]))

/-- `server_api.add_suffix` (default suffix `".md"`). -/
def add_suffix (s : Str) : Option Str := withSuffix s ".md".toList

/-- `server_api.remove_suffix`. -/
def remove_suffix (s : Str) : Option Str := withSuffix s []

/-! ## server_api.py: lock manager

`datetime` values in the lock logic are only created from "now", shifted by
constant intervals and compared, so they are modelled by epoch milliseconds.
The other clients' server locks do not change during the modelled operations;
this client's own server lock record is tracked separately so that its
creation and deletion are visible.
-/

inductive LockType
  | NONE | SYNC | EXCLUSIVE
deriving DecidableEq, Repr

inductive LockClientType
  | DESKTOP | MOBILE | CLI
deriving DecidableEq, Repr

/-- A lock record on the server (`dt.LockData` with the fields the lock
logic reads; `updatedTime` is epoch milliseconds). -/
structure ServerLock where
  type : LockType
  clientId : Str
  updatedTime : Nat
deriving DecidableEq, Repr

/-- The `ApiBase` instance state used by the lock logic. -/
structure ApiState where
  client_id : Str
  current_sync_lock : Option ServerLock
deriving DecidableEq, Repr

/-- `self.lock_ttl = timedelta(seconds=60 * 3)`, in milliseconds. -/
def lock_ttl : Nat := 3 * 60 * 1000

/-- `self.lock_auto_refresh_interval = timedelta(seconds=60)`. -/
def lock_auto_refresh_interval : Nat := 60 * 1000

/-- `ApiBase._is_lock_active`: `updated_time + lock_ttl > utcnow()`. -/
def is_lock_active (updated_time now : Nat) : Bool :=
  now < updated_time + lock_ttl

/-- The requests that bypass the lock guard in `ApiBase._request`: login,
the lock endpoints, and the two sync-target version paths (matched as
substrings, exactly as in the source). -/
def bypassesLock (path : Str) : Bool :=
  path == "/login".toList
    || "/api/locks".toList.isPrefixOf path
    || hasSub "info.json".toList path
    || hasSub ".sync/version.txt".toList path

/-- The two lock errors the guard can raise, and the acquisition failure of
`sync_lock`. -/
inductive LockError
  | noLock | lockExpired | couldNotAcquire
deriving DecidableEq, Repr

/-- Network traffic of a request, in order.  `lockPost` is the
`POST /api/locks` issued by `_add_lock`. -/
inductive NetCall
  | http (method : String) (path : Str)
  | lockPost (clientId : Str)
deriving DecidableEq, Repr

/-- `ApiBase._add_lock`: posts this client's SYNC lock; the server stamps
the stored lock's `updatedTime` with the current time and returns it. -/
def add_lock (st : ApiState) (now : Nat) : ServerLock :=
  { type := .SYNC, clientId := st.client_id, updatedTime := now }

structure RequestOutcome where
  state : ApiState
  calls : List NetCall
  /-- `some e` when the guard raised `e`; `none` when the request went out. -/
  raised : Option LockError
deriving DecidableEq, Repr

/-- The lock guard of `ApiBase._request` (server_api.py, lines 170-209): for
a guarded path, no held lock raises the "no sync lock" error and an expired
lock the "sync lock expired" error, both before any network traffic; a held
lock older than the auto-refresh interval is transparently re-posted before
the request itself is sent. -/
def request (st : ApiState) (method : String) (path : Str) (now : Nat) :
    RequestOutcome :=
  if ¬ bypassesLock path then
    match st.current_sync_lock with
    | none => { state := st, calls := [], raised := some .noLock }
    | some lock =>
      if ¬ is_lock_active lock.updatedTime now then
        { state := st, calls := [], raised := some .lockExpired }
      else if lock.updatedTime + lock_auto_refresh_interval < now then
        let newLock := add_lock st now
        { state := { st with current_sync_lock := some newLock },
          calls := [.lockPost st.client_id, .http method path],
          raised := none }
      else
        { state := st, calls := [.http method path], raised := none }
  else
    { state := st, calls := [.http method path], raised := none }

/-- The server's lock list during one acquisition: the other clients' locks,
plus this client's own lock record when present. -/
structure LockStore where
  others : List ServerLock
  own : Option ServerLock
deriving DecidableEq, Repr

def LockStore.all (s : LockStore) : List ServerLock :=
  s.others ++ s.own.toList

/-- The `is_locked` check inside `_acquire_sync_lock`: an active EXCLUSIVE
lock, or an active SYNC lock with this client's id, blocks acquisition. -/
def is_locked (st : ApiState) (serverLocks : List ServerLock) (now : Nat)
    (check_lock_types : List LockType) : Bool :=
  serverLocks.any fun lock =>
    check_lock_types.contains lock.type
      && is_lock_active lock.updatedTime now
      && (lock.type == .EXCLUSIVE
        || (lock.type == .SYNC && lock.clientId == st.client_id))

/-- `ApiBase._delete_own_lock`: clears the in-memory lock and deletes this
client's lock record on the server. -/
def delete_own_lock (st : ApiState) (store : LockStore) :
    ApiState × LockStore :=
  ({ st with current_sync_lock := none }, { store with own := none })

/-- `ApiBase._acquire_sync_lock(tries)`: up to `tries` rounds of: when not
locked, create the lock, then re-check for a racing EXCLUSIVE lock and
delete the just-created lock when one appeared.  Exhausting the rounds
returns silently. -/
def acquire_sync_lock (st : ApiState) (store : LockStore) (now : Nat) :
    Nat → ApiState × LockStore
  | 0 => (st, store)
  | tries + 1 =>
    if ¬ is_locked st store.all now [.SYNC, .EXCLUSIVE] then
      let newLock := add_lock st now
      let st1 : ApiState := { st with current_sync_lock := some newLock }
      let store1 : LockStore := { store with own := some newLock }
      if is_locked st1 store1.all now [.EXCLUSIVE] then
        -- avoid race conditions
        let (st2, store2) := delete_own_lock st1 store1
        acquire_sync_lock st2 store2 now tries
      else (st1, store1)
    else acquire_sync_lock st store now tries

/-- Outcome of a `with api.sync_lock(): body` block. -/
inductive SyncLockOutcome
  | lockError (st : ApiState) (store : LockStore)
  | bodyException (st : ApiState) (store : LockStore)
  | completed (st : ApiState) (store : LockStore)
deriving DecidableEq, Repr

/-- `ApiBase.sync_lock` used as `with api.sync_lock(): body` — acquire (one
try), raise `LockError` when no lock is held afterwards, run the body, then
release.  The generator has no try/finally around its `yield`: when the body
raises (`bodyRaises = true`) the exception propagates from the `yield` and
`_delete_own_lock()` is never executed. -/
def sync_lock (st : ApiState) (store : LockStore) (now : Nat)
    (bodyRaises : Bool) : SyncLockOutcome :=
  let acq := acquire_sync_lock st store now 1
  match acq.1.current_sync_lock with
  | none => .lockError acq.1 acq.2
  | some _ =>
    if bodyRaises then .bodyException acq.1 acq.2
    else
      let rel := delete_own_lock acq.1 acq.2
      .completed rel.1 rel.2

/-! ## server_api.py: Note.add_note -/

/-- `Note.add_note(parent_id, **data)` for string-valued kwargs: construct
the record, serialize it (which installs the synthesized id), PUT the text
under `root:/{add_suffix(id)}:/content`, and return the id.  The result is
the returned id together with the stored text. -/
def add_note (parent_id : Str) (data : Dict) (freshId : Str) :
    Except String (Str × Str) := do
  -- dt.NoteData(parent_id=parent_id, **data); a duplicate parent_id kwarg
  -- would be a TypeError
  if (dget "parent_id".toList data).isSome then
    .error "TypeError: multiple values for argument"
  else do
    let note_data ← mkNoteDataOfKwargs (("parent_id".toList, parent_id) :: data)
    let ser := note_data.serialize freshId
    -- assert note_data.id is not None
    match ser.2.id with
    | none => .error "AssertionError"
    | some id_ => .ok (id_, ser.1)

/-! ## Lemmas about the integer grammar -/

theorem dropWhile_eq_self_of_all {p : Char → Bool} (s : Str)
    (h : ∀ c ∈ s, p c = false) : s.dropWhile p = s := by
  cases s with
  | nil => rfl
  | cons c cs =>
    rw [List.dropWhile_cons_of_neg]
    simp [h c (List.mem_cons_self c cs)]

theorem pyStrip_eq_self (s : Str) (h : ∀ c ∈ s, isAsciiSpace c = false) :
    pyStrip s = s := by
  unfold pyStrip
  rw [dropWhile_eq_self_of_all s h,
    dropWhile_eq_self_of_all s.reverse (fun c hc => h c (List.mem_reverse.mp hc)),
    List.reverse_reverse]

theorem digitsTail_cons_ne (isDig : Char → Bool) (c : Char) (rest : Str)
    (h : c ≠ '_') :
    digitsTail isDig (c :: rest) = (isDig c && digitsTail isDig rest) := by
  cases rest with
  | nil =>
    rw [show digitsTail isDig [c] = if c = '_' then false else isDig c from rfl,
      if_neg h]
    cases isDig c <;> rfl
  | cons c2 rest2 =>
    rw [show digitsTail isDig (c :: c2 :: rest2)
        = if c = '_' then isDig c2 && digitsTail isDig rest2
          else isDig c && digitsTail isDig (c2 :: rest2) from rfl, if_neg h]

theorem digitsTail_underscore_cons (isDig : Char → Bool) (c2 : Char) (rest : Str) :
    digitsTail isDig ('_' :: c2 :: rest)
      = (isDig c2 && digitsTail isDig rest) := by
  rw [show digitsTail isDig ('_' :: c2 :: rest)
      = if ('_' : Char) = '_' then isDig c2 && digitsTail isDig rest
        else isDig '_' && digitsTail isDig (c2 :: rest) from rfl, if_pos rfl]

theorem digitsTail_of_all (isDig : Char → Bool) (s : Str)
    (h : ∀ c ∈ s, isDig c = true ∧ c ≠ '_') : digitsTail isDig s = true := by
  induction s with
  | nil => rfl
  | cons c cs ih =>
    have hc := h c (List.mem_cons_self c cs)
    rw [digitsTail_cons_ne isDig c cs hc.2, hc.1,
      ih (fun d hd => h d (List.mem_cons_of_mem c hd))]
    rfl

theorem digitsRun_of_all (isDig : Char → Bool) (s : Str) (hne : s ≠ [])
    (h : ∀ c ∈ s, isDig c = true ∧ c ≠ '_') : digitsRun isDig s = true := by
  cases s with
  | nil => exact absurd rfl hne
  | cons c cs =>
    rw [show digitsRun isDig (c :: cs) = (isDig c && digitsTail isDig cs) from rfl]
    rw [(h c (List.mem_cons_self c cs)).1,
      digitsTail_of_all isDig cs (fun d hd => h d (List.mem_cons_of_mem c hd))]
    rfl

theorem digitsTail_mem (isDig : Char → Bool) (hno : isDig '_' = false) :
    ∀ s : Str, digitsTail isDig s = true → ∀ c ∈ s, isDig c = true ∨ c = '_' := by
  intro s
  induction s with
  | nil => intro _ c hc; cases hc
  | cons c0 cs ih =>
    intro h c hc
    by_cases h0 : c0 = '_'
    · subst h0
      cases cs with
      | nil => cases h
      | cons c2 rest2 =>
        rw [digitsTail_underscore_cons isDig c2 rest2] at h
        rcases (by simpa using h : isDig c2 = true ∧ digitsTail isDig rest2 = true)
          with ⟨h1, h2⟩
        rcases List.mem_cons.mp hc with rfl | hc2
        · exact Or.inr rfl
        · have hc2ne : c2 ≠ '_' := fun he => by rw [he, hno] at h1; cases h1
          have : digitsTail isDig (c2 :: rest2) = true := by
            rw [digitsTail_cons_ne isDig c2 rest2 hc2ne, h1, h2]; rfl
          exact ih this c hc2
    · rw [digitsTail_cons_ne isDig c0 cs h0] at h
      rcases (by simpa using h : isDig c0 = true ∧ digitsTail isDig cs = true)
        with ⟨h1, h2⟩
      rcases List.mem_cons.mp hc with rfl | hc2
      · exact Or.inl h1
      · exact ih h2 c hc2

theorem digitsRun_mem (isDig : Char → Bool) (hno : isDig '_' = false) (s : Str)
    (h : digitsRun isDig s = true) : ∀ c ∈ s, isDig c = true ∨ c = '_' := by
  cases s with
  | nil => intro c hc; cases hc
  | cons c0 cs =>
    rw [show digitsRun isDig (c0 :: cs) = (isDig c0 && digitsTail isDig cs) from rfl]
      at h
    rcases (by simpa using h : isDig c0 = true ∧ digitsTail isDig cs = true)
      with ⟨h1, h2⟩
    intro c hc
    rcases List.mem_cons.mp hc with rfl | hc2
    · exact Or.inl h1
    · exact digitsTail_mem isDig hno cs h2 c hc2

/-- The characters that can appear in a string accepted by `int(_, 16)`:
Unicode decimal digits, ASCII hex letters of either case, signs, `x`/`X`,
underscores and Unicode whitespace. -/
def pyIntAllowedChar (c : Char) : Bool :=
  (decDigitVal c).isSome || isHexDigitAscii c || c = '_' || c = '+'
    || c = '-' || c = 'x' || c = 'X' || isPySpace c

/-- The alphabet of the post-transform (ASCII) parsing stage. -/
def asciiIntAllowedChar (c : Char) : Bool :=
  isHexDigitAscii c || c = '_' || c = '+' || c = '-' || c = 'x' || c = 'X'
    || isAsciiSpace c

theorem mem_strip_or_space (c : Char) (s : Str) (hc : c ∈ s) :
    isAsciiSpace c = true ∨ c ∈ pyStrip s := by
  have h1 : c ∈ s.takeWhile isAsciiSpace ++ s.dropWhile isAsciiSpace := by
    rw [List.takeWhile_append_dropWhile isAsciiSpace s]; exact hc
  rcases List.mem_append.mp h1 with h2 | h2
  · exact Or.inl (List.mem_takeWhile_imp h2)
  · have hc2 : c ∈ (s.dropWhile isAsciiSpace).reverse := List.mem_reverse.mpr h2
    have h3 : c ∈ (s.dropWhile isAsciiSpace).reverse.takeWhile isAsciiSpace
        ++ (s.dropWhile isAsciiSpace).reverse.dropWhile isAsciiSpace := by
      rw [List.takeWhile_append_dropWhile isAsciiSpace]; exact hc2
    rcases List.mem_append.mp h3 with h4 | h4
    · exact Or.inl (List.mem_takeWhile_imp h4)
    · exact Or.inr (List.mem_reverse.mpr h4)

theorem mem_dropSign_or_sign (c : Char) (t0 : Str) (hc : c ∈ t0) :
    c = '+' ∨ c = '-' ∨ c ∈ dropSign t0 := by
  unfold dropSign
  cases t0 with
  | nil => cases hc
  | cons c0 rest =>
    dsimp only
    by_cases h0 : c0 = '+' ∨ c0 = '-'
    · rw [if_pos h0]
      rcases List.mem_cons.mp hc with rfl | hr
      · rcases h0 with h | h
        · exact Or.inl h
        · exact Or.inr (Or.inl h)
      · exact Or.inr (Or.inr hr)
    · rw [if_neg h0]
      exact Or.inr (Or.inr hc)

theorem hex_digit_allowed (c : Char) (h : isHexDigitAscii c = true ∨ c = '_') :
    asciiIntAllowedChar c = true := by
  unfold asciiIntAllowedChar
  rcases h with h | rfl
  · rw [h]; rfl
  · rfl

theorem isHexDigitAscii_underscore : isHexDigitAscii '_' = false := by decide

theorem pyIntCore16_mem (t : Str) (h : pyIntCore16 t = true) :
    ∀ c ∈ t, asciiIntAllowedChar c = true := by
  intro c hc
  unfold pyIntCore16 at h
  rcases t with _ | ⟨c0, _ | ⟨c1, rest⟩⟩
  · cases hc
  · dsimp only at h
    exact hex_digit_allowed c
      (digitsRun_mem isHexDigitAscii isHexDigitAscii_underscore [c0] h c hc)
  · dsimp only at h
    by_cases hpre : c0 = '0' ∧ (c1 = 'x' ∨ c1 = 'X')
    · rw [if_pos hpre] at h
      rcases List.mem_cons.mp hc with rfl | hc1
      · rw [hpre.1]; rfl
      rcases List.mem_cons.mp hc1 with rfl | hc2
      · rcases hpre.2 with h2 | h2 <;> rw [h2] <;> rfl
      · rcases rest with _ | ⟨r0, rest2⟩
        · cases hc2
        · dsimp only at h
          by_cases hr0 : r0 = '_'
          · rw [if_pos hr0] at h
            rcases List.mem_cons.mp hc2 with rfl | hc3
            · rw [hr0]; rfl
            · exact hex_digit_allowed c
                (digitsRun_mem isHexDigitAscii isHexDigitAscii_underscore rest2
                  h c hc3)
          · rw [if_neg hr0] at h
            exact hex_digit_allowed c
              (digitsRun_mem isHexDigitAscii isHexDigitAscii_underscore
                (r0 :: rest2) h c hc2)
    · rw [if_neg hpre] at h
      exact hex_digit_allowed c
        (digitsRun_mem isHexDigitAscii isHexDigitAscii_underscore
          (c0 :: c1 :: rest) h c hc)

theorem asciiPipeline_mem (t : Str)
    (h : pyIntCore16 (dropSign (pyStrip t)) = true) :
    ∀ c ∈ t, asciiIntAllowedChar c = true := by
  intro c hc
  rcases mem_strip_or_space c t hc with hsp | hstrip
  · unfold asciiIntAllowedChar
    rw [hsp]
    simp
  · rcases mem_dropSign_or_sign c (pyStrip t) hstrip with rfl | rfl | hcore
    · rfl
    · rfl
    · exact pyIntCore16_mem (dropSign (pyStrip t)) h c hcore

theorem decDigitVal_ascii (c : Char) (h1 : 48 ≤ c.toNat) (h2 : c.toNat ≤ 57) :
    decDigitVal c = some (c.toNat - 48) := by
  unfold decDigitVal
  rw [show pyDigitRangeStarts = 48 :: pyDigitRangeStarts.tail from rfl,
    @List.find?_cons_of_pos Nat
      (fun r => decide (r ≤ c.toNat ∧ c.toNat ≤ r + 9)) 48
      pyDigitRangeStarts.tail
      (decide_eq_true (show (48 : Nat) ≤ c.toNat ∧ c.toNat ≤ 48 + 9 from
        ⟨h1, by omega⟩))]
  rfl

theorem decDigitVal_none_of_lower_letter (c : Char) (h1 : 97 ≤ c.toNat)
    (h2 : c.toNat ≤ 102) : decDigitVal c = none := by
  unfold decDigitVal
  have hfind : pyDigitRangeStarts.find?
      (fun r => decide (r ≤ c.toNat ∧ c.toNat ≤ r + 9)) = none := by
    rw [List.find?_eq_none]
    intro r hr
    have hrg : r = 48 ∨ 1536 ≤ r :=
      (show ∀ x ∈ pyDigitRangeStarts, x = 48 ∨ 1536 ≤ x from by decide) r hr
    simp only [decide_eq_true_eq]
    omega
  rw [hfind]
  rfl

theorem isPySpace_false_of_lower_letter (c : Char) (h1 : 97 ≤ c.toNat)
    (h2 : c.toNat ≤ 102) : isPySpace c = false := by
  unfold isPySpace
  apply decide_eq_false
  intro hmem
  have := (show ∀ x ∈ pySpaceCodes, x < 97 ∨ 102 < x from by decide)
    c.toNat hmem
  omega

theorem ascii_space_py_space (c : Char) (h : isAsciiSpace c = true) :
    isPySpace c = true := by
  unfold isAsciiSpace at h
  rcases (by simpa using h :
      c = ' ' ∨ c = '\t' ∨ c = '\n' ∨ c = '\r' ∨ c = '\x0b' ∨ c = '\x0c')
    with rfl | rfl | rfl | rfl | rfl | rfl <;> decide

theorem pyToAscii_lower_hex (c : Char) (h : isLowerHexDigit c = true) :
    pyToAscii c = c := by
  unfold isLowerHexDigit at h
  have hp := of_decide_eq_true h
  unfold pyToAscii
  rcases hp with ⟨h1, h2⟩ | ⟨h1, h2⟩
  · rw [decDigitVal_ascii c h1 h2]
    dsimp only
    rw [show 48 + (c.toNat - 48) = c.toNat from by omega]
    exact Char.ofNat_toNat c
  · rw [decDigitVal_none_of_lower_letter c h1 h2]
    dsimp only
    rw [isPySpace_false_of_lower_letter c h1 h2]
    rfl

theorem map_pyToAscii_eq_self (s : Str)
    (h : ∀ c ∈ s, isLowerHexDigit c = true) : s.map pyToAscii = s := by
  induction s with
  | nil => rfl
  | cons c cs ih =>
    rw [List.map_cons, pyToAscii_lower_hex c (h c (List.mem_cons_self c cs)),
      ih (fun d hd => h d (List.mem_cons_of_mem c hd))]

theorem pyIntOkBase16_mem (s : Str) (h : pyIntOkBase16 s = true) :
    ∀ c ∈ s, pyIntAllowedChar c = true := by
  intro c hc
  have hall := asciiPipeline_mem (s.map pyToAscii) h (pyToAscii c)
    (List.mem_map_of_mem pyToAscii hc)
  cases hd : decDigitVal c with
  | some v =>
    unfold pyIntAllowedChar
    rw [hd]
    rfl
  | none =>
    cases hsp : isPySpace c with
    | true =>
      unfold pyIntAllowedChar
      rw [hsp]
      simp
    | false =>
      have hid : pyToAscii c = c := by
        unfold pyToAscii
        rw [hd]
        dsimp only
        rw [hsp]
        rfl
      rw [hid] at hall
      unfold asciiIntAllowedChar at hall
      unfold pyIntAllowedChar
      rw [hd, hsp]
      rcases (by simpa using hall :
          (((((isHexDigitAscii c = true ∨ c = '_') ∨ c = '+') ∨ c = '-')
            ∨ c = 'x') ∨ c = 'X') ∨ isAsciiSpace c = true)
        with (((((hx | rfl) | rfl) | rfl) | rfl) | rfl) | hx
      · simp [hx]
      · decide
      · decide
      · decide
      · decide
      · decide
      · rw [ascii_space_py_space c hx] at hsp
        exact Bool.noConfusion hsp

theorem lower_hex_not_space (c : Char) (h : isLowerHexDigit c = true) :
    isAsciiSpace c = false := by
  cases hsp : isAsciiSpace c
  · rfl
  · exfalso
    unfold isAsciiSpace at hsp
    rcases (by simpa using hsp :
        c = ' ' ∨ c = '\t' ∨ c = '\n' ∨ c = '\r' ∨ c = '\x0b' ∨ c = '\x0c')
      with rfl | rfl | rfl | rfl | rfl | rfl <;> revert h <;> decide

theorem lower_hex_is_hex (c : Char) (h : isLowerHexDigit c = true) :
    isHexDigitAscii c = true ∧ c ≠ '_' := by
  unfold isLowerHexDigit at h
  have hp := of_decide_eq_true h
  constructor
  · unfold isHexDigitAscii
    exact decide_eq_true (by omega)
  · rintro rfl
    exact absurd hp (by decide)

theorem pyIntOkBase16_of_lower_hex (s : Str) (hne : s ≠ [])
    (h : ∀ c ∈ s, isLowerHexDigit c = true) : pyIntOkBase16 s = true := by
  unfold pyIntOkBase16
  rw [map_pyToAscii_eq_self s h]
  have hstrip : pyStrip s = s :=
    pyStrip_eq_self s (fun c hc => lower_hex_not_space c (h c hc))
  have hsign : dropSign s = s := by
    unfold dropSign
    cases s with
    | nil => rfl
    | cons c0 rest =>
      dsimp only
      rw [if_neg]
      intro h0
      have := h c0 (List.mem_cons_self c0 rest)
      rcases h0 with rfl | rfl <;> revert this <;> decide
  rw [hstrip, hsign]
  have hrun : digitsRun isHexDigitAscii s = true :=
    digitsRun_of_all isHexDigitAscii s hne
      (fun c hc => lower_hex_is_hex c (h c hc))
  unfold pyIntCore16
  rcases s with _ | ⟨c0, _ | ⟨c1, rest⟩⟩
  · exact absurd rfl hne
  · exact hrun
  · dsimp only
    rw [if_neg, hrun]
    rintro ⟨-, h1 | h1⟩ <;>
      · have := h c1 (List.mem_cons_of_mem c0 (List.mem_cons_self c1 rest))
        rw [h1] at this
        revert this
        decide

/-! ## C7: the id validity check

The claim says a 32-character string containing a non-hex character is
rejected.  The code decides 32-character strings with `int(id_, 16)`, which
also accepts an optional `0x`/`0X` prefix, signs, underscores, surrounding
whitespace (in the Unicode sense) and digits from any Unicode decimal-digit
range — so for example `"0x" + 30 hex digits` is a 32-character string
containing the non-hex character `x` that `is_id_valid` accepts.  The
remaining parts of the claim hold as stated.
-/

/-- C7 counterexample: the 32-character string `"0x" ++ "a" * 30` contains
the non-hex character `x`, yet `is_id_valid` accepts it, because
`int(id_, 16)` accepts a `0x` prefix. -/
theorem C7_counterexample :
    is_id_valid ('0' :: 'x' :: List.replicate 30 'a') = true
      ∧ ('0' :: 'x' :: List.replicate 30 'a').length = 32
      ∧ 'x' ∈ ('0' :: 'x' :: List.replicate 30 'a')
      ∧ isLowerHexDigit 'x' = false ∧ isHexDigitAscii 'x' = false
      ∧ decDigitVal 'x' = none := by
  refine ⟨by decide, by decide, ?_, by decide, by decide, by decide⟩
  exact List.mem_cons_of_mem '0' (List.mem_cons_self 'x' _)

/-- C7 (amended): `is_id_valid` accepts every 32-character lowercase-hex
string, rejects every 32-character string containing a character outside the
alphabet of Python's base-16 integer parser (Unicode decimal digits, ASCII
hex letters of either case, sign, `x`/`X`, underscore, Unicode whitespace),
accepts every 22-character string, rejects every string of any other length,
and record construction additionally accepts the empty string in the id
role. -/
theorem C7_is_id_valid_characterization :
    (∀ s : Str, s.length = 32 → (∀ c ∈ s, isLowerHexDigit c = true) →
      is_id_valid s = true)
    ∧ (∀ s : Str, s.length = 32 → (∃ c ∈ s, pyIntAllowedChar c = false) →
      is_id_valid s = false)
    ∧ (∀ s : Str, s.length = 22 → is_id_valid s = true)
    ∧ (∀ s : Str, s.length ≠ 32 → s.length ≠ 22 → is_id_valid s = false)
    ∧ castIdField (some []) = .ok (some []) := by
  refine ⟨?_, ?_, ?_, ?_, rfl⟩
  · intro s hlen hhex
    unfold is_id_valid
    rw [if_pos hlen]
    exact pyIntOkBase16_of_lower_hex s
      (by intro he; rw [he] at hlen; cases hlen) hhex
  · intro s hlen hbad
    unfold is_id_valid
    rw [if_pos hlen]
    rcases hbad with ⟨c, hc, hcbad⟩
    cases hok : pyIntOkBase16 s
    · rfl
    · rw [pyIntOkBase16_mem s hok c hc] at hcbad
      cases hcbad
  · intro s hlen
    unfold is_id_valid
    rw [if_neg (by rw [hlen]; decide), if_pos hlen]
  · intro s h32 h22
    unfold is_id_valid
    rw [if_neg h32, if_neg h22]

/-- C7 witness: the characterization applied to concrete ids of each shape,
plus the Unicode behaviour of `int(_, 16)` on 32-character inputs: a string
of 32 Arabic-Indic zero digits (U+0660) and a no-break-space-padded
(U+00A0) hex string are both accepted, as in CPython. -/
theorem C7_witness :
    is_id_valid (List.replicate 32 'a') = true
      ∧ is_id_valid (List.replicate 32 'g') = false
      ∧ is_id_valid (List.replicate 22 'z') = true
      ∧ is_id_valid "abc".toList = false
      ∧ is_id_valid (List.replicate 32 (Char.ofNat 0x660)) = true
      ∧ is_id_valid (Char.ofNat 0xA0 :: List.replicate 30 'a'
          ++ [Char.ofNat 0xA0]) = true := by
  refine ⟨?_, ?_, ?_, ?_, by decide, by decide⟩
  · exact C7_is_id_valid_characterization.1 (List.replicate 32 'a') (by decide)
      (by intro c hc; rw [List.eq_of_mem_replicate hc]; decide)
  · exact C7_is_id_valid_characterization.2.1 (List.replicate 32 'g') (by decide)
      ⟨'g', List.mem_replicate.mpr ⟨by decide, rfl⟩, by decide⟩
  · exact C7_is_id_valid_characterization.2.2.1 (List.replicate 22 'z') (by decide)
  · exact C7_is_id_valid_characterization.2.2.2.1 "abc".toList (by decide) (by decide)

/-! ## C8: suffix handling -/

theorem splitSlash_no_slash (s : Str) (h : '/' ∉ s) : splitSlash s = [s] := by
  induction s with
  | nil => rfl
  | cons c cs ih =>
    have hc : c ≠ '/' := fun hc => h (hc ▸ List.mem_cons_self c cs)
    have hcs : '/' ∉ cs := fun hm => h (List.mem_cons_of_mem c hm)
    simp only [splitSlash, if_neg hc]
    rw [ih hcs]

theorem pathComponents_single (s : Str) (hne : s ≠ []) (hdot : s ≠ ['.'])
    (hsl : '/' ∉ s) : pathComponents s = [s] := by
  unfold pathComponents
  rw [splitSlash_no_slash s hsl]
  simp [List.filter, hne, hdot]

theorem pathRoot_of_no_slash (s : Str) (h : '/' ∉ s) : pathRoot s = [] := by
  have hs : ¬ "/".toList.isPrefixOf s := by
    intro hpre
    cases s with
    | nil => simp [List.isPrefixOf] at hpre
    | cons c cs =>
      rcases List.cons_prefix_cons.mp (List.isPrefixOf_iff_prefix.mp hpre)
        with ⟨rfl, -⟩
      exact h (List.mem_cons_self '/' cs)
  have hss : ¬ "//".toList.isPrefixOf s := by
    intro hpre
    cases s with
    | nil => simp [List.isPrefixOf] at hpre
    | cons c cs =>
      rcases List.cons_prefix_cons.mp (List.isPrefixOf_iff_prefix.mp hpre)
        with ⟨rfl, -⟩
      exact h (List.mem_cons_self '/' cs)
  unfold pathRoot
  rw [if_neg (fun hc => hss hc.1), if_neg hs]

theorem lastIdx_dot_md (s : Str) :
    lastIdx ['.'] (s ++ ".md".toList) = some s.length := by
  rw [lastIdx_eq_some_iff ['.'] (by simp)]
  constructor
  · rw [List.drop_left]
    decide
  · intro j hj hpre
    obtain ⟨k, rfl⟩ := Nat.exists_eq_add_of_le (Nat.succ_le_of_lt hj)
    rw [show s.length + 1 + k = s.length + (1 + k) from by omega,
      List.drop_append (1 + k)] at hpre
    rcases k with _ | _ | k
    · simp [List.isPrefixOf] at hpre
    · simp [List.isPrefixOf] at hpre
    · rw [List.drop_eq_nil_of_le (by simp; omega)] at hpre
      simp [List.isPrefixOf] at hpre

theorem nameSuffix_append_md (s : Str) (hne : s ≠ []) :
    nameSuffix (s ++ ".md".toList) = ".md".toList := by
  unfold nameSuffix
  rw [lastIdx_dot_md s]
  have hpos : 0 < s.length := List.length_pos.mpr hne
  have hlt : s.length < (s ++ ".md".toList).length - 1 := by simp
  dsimp only
  rw [if_pos ⟨hpos, hlt⟩, List.drop_left]

/-- C8: on a plain file name with no existing suffix (in particular, on every
id this library produces), `add_suffix` appends `.md` without altering the
name, `remove_suffix` undoes it exactly, and `remove_suffix` on a name
without a suffix is a no-op. -/
theorem C8_suffix_inverses (s : Str) (hne : s ≠ []) (hsl : '/' ∉ s)
    (hdot : s ≠ ['.']) (hsuf : nameSuffix s = []) :
    add_suffix s = some (s ++ ".md".toList)
      ∧ remove_suffix (s ++ ".md".toList) = some s
      ∧ remove_suffix s = some s := by
  have hcomp : pathComponents s = [s] := pathComponents_single s hne hdot hsl
  have hroot : pathRoot s = [] := pathRoot_of_no_slash s hsl
  have hmdne : s ++ ".md".toList ≠ [] := by simp
  have hmdsl : '/' ∉ s ++ ".md".toList := by
    intro hm
    rcases List.mem_append.mp hm with hm | hm
    · exact hsl hm
    · revert hm; decide
  have hmddot : s ++ ".md".toList ≠ ['.'] := by
    intro he
    have hlen := congrArg List.length he
    simp at hlen
  have hcompmd : pathComponents (s ++ ".md".toList) = [s ++ ".md".toList] :=
    pathComponents_single _ hmdne hmddot hmdsl
  have hrootmd : pathRoot (s ++ ".md".toList) = [] :=
    pathRoot_of_no_slash _ hmdsl
  refine ⟨?_, ?_, ?_⟩
  · unfold add_suffix withSuffix
    rw [hcomp, hroot]
    simp only [List.getLast?_singleton, List.dropLast_single, hsuf]
    rw [show s.length - ([] : Str).length = s.length from rfl, List.take_length]
    rfl
  · unfold remove_suffix withSuffix
    rw [hcompmd, hrootmd]
    simp only [List.getLast?_singleton, List.dropLast_single,
      nameSuffix_append_md s hne]
    rw [show (s ++ ".md".toList).length - (".md".toList : Str).length
        = s.length from by simp, List.take_left, List.append_nil]
    rfl
  · unfold remove_suffix withSuffix
    rw [hcomp, hroot]
    simp only [List.getLast?_singleton, List.dropLast_single, hsuf]
    rw [show s.length - ([] : Str).length = s.length from rfl, List.take_length,
      List.append_nil]
    rfl

/-- C8 witness: a concrete 32-character hex id. -/
theorem C8_witness :
    add_suffix "0123456789abcdef0123456789abcdef".toList
        = some "0123456789abcdef0123456789abcdef.md".toList
      ∧ remove_suffix "0123456789abcdef0123456789abcdef.md".toList
        = some "0123456789abcdef0123456789abcdef".toList
      ∧ remove_suffix "0123456789abcdef0123456789abcdef".toList
        = some "0123456789abcdef0123456789abcdef".toList := by
  have h := C8_suffix_inverses "0123456789abcdef0123456789abcdef".toList
    (by decide) (by decide) (by decide) (by decide)
  exact ⟨h.1, h.2.1, h.2.2⟩

/-! ## C9: unpagination -/

theorem unpaginateLoop_spec {α : Type} (fetch : Nat → DataList α) (n : Nat)
    (hmore : ∀ p, 1 ≤ p → p < n → (fetch p).has_more = true)
    (hlast : (fetch n).has_more = false) :
    ∀ fuel k acc, 1 ≤ k → k ≤ n → n - k ≤ fuel →
      unpaginateLoop fetch acc k ((fetch k).has_more) fuel
        = acc
          ++ ((List.range' (k + 1) (n - k)).map fun p => (fetch p).items).flatten := by
  intro fuel
  induction fuel with
  | zero =>
    intro k acc hk1 hkn hfuel
    rw [show n - k = 0 from by omega]
    simp [unpaginateLoop]
  | succ fuel ih =>
    intro k acc hk1 hkn hfuel
    by_cases hkeq : k = n
    · rw [hkeq, hlast, show n - n = 0 from by omega]
      simp [unpaginateLoop]
    · have hklt : k < n := by omega
      rw [hmore k hk1 hklt]
      rw [show unpaginateLoop fetch acc k true (fuel + 1)
          = unpaginateLoop fetch (acc ++ (fetch (k + 1)).items) (k + 1)
              ((fetch (k + 1)).has_more) fuel from rfl]
      rw [ih (k + 1) (acc ++ (fetch (k + 1)).items) (by omega) (by omega)
        (by omega)]
      rw [show n - k = (n - (k + 1)) + 1 from by omega, List.range'_succ]
      simp [List.append_assoc]

/-- C9: while `has_more` is true, `_unpaginate` fetches pages 1, 2, ..., n
(one-based, incrementing) and returns the concatenation of their `items` in
order; in particular, with page sizes 10, 10 and 1 and `has_more` true,
true, false it returns exactly 21 items. -/
theorem C9_unpaginate_concat {α : Type} :
    (∀ (fetch : Nat → DataList α) (n fuel : Nat), 1 ≤ n →
      (∀ p, 1 ≤ p → p < n → (fetch p).has_more = true) →
      (fetch n).has_more = false → n - 1 ≤ fuel →
      unpaginate fetch fuel
        = ((List.range' 1 n).map fun p => (fetch p).items).flatten)
    ∧ (∀ fetch : Nat → DataList α,
      (fetch 1).items.length = 10 → (fetch 2).items.length = 10 →
      (fetch 3).items.length = 1 →
      (fetch 1).has_more = true → (fetch 2).has_more = true →
      (fetch 3).has_more = false →
      unpaginate fetch 2
          = (fetch 1).items ++ (fetch 2).items ++ (fetch 3).items
        ∧ (unpaginate fetch 2).length = 21) := by
  have hmain : ∀ (fetch : Nat → DataList α) (n fuel : Nat), 1 ≤ n →
      (∀ p, 1 ≤ p → p < n → (fetch p).has_more = true) →
      (fetch n).has_more = false → n - 1 ≤ fuel →
      unpaginate fetch fuel
        = ((List.range' 1 n).map fun p => (fetch p).items).flatten := by
    intro fetch n fuel hn hmore hlast hfuel
    unfold unpaginate
    rw [unpaginateLoop_spec fetch n hmore hlast fuel 1 (fetch 1).items
      (le_refl 1) hn hfuel]
    rw [show n = (n - 1) + 1 from by omega, List.range'_succ]
    simp
  refine ⟨hmain, ?_⟩
  intro fetch h1 h2 h3 hm1 hm2 hm3
  have hmore : ∀ p, 1 ≤ p → p < 3 → (fetch p).has_more = true := by
    intro p hp1 hp3
    interval_cases p
    · exact hm1
    · exact hm2
  have hconc := hmain fetch 3 2 (by omega) hmore hm3 (by omega)
  rw [show (List.range' 1 3) = [1, 2, 3] from rfl] at hconc
  constructor
  · rw [hconc]
    simp [List.append_assoc]
  · rw [hconc]
    simp [h1, h2, h3]

/-- The paginated fetch of the claim: pages of sizes 10, 10 and 1, with
`has_more` true, true, false. -/
def fetch3 : Nat → DataList Nat
  | 1 => { has_more := true, cursor := none, items := List.range 10 }
  | 2 => { has_more := true, cursor := none,
           items := (List.range 10).map (· + 10) }
  | 3 => { has_more := false, cursor := none, items := [20] }
  | _ => { has_more := false, cursor := none, items := [] }

/-- C9 witness: the concrete three-page fetch yields the 21 items 0..20 in
order. -/
theorem C9_witness :
    unpaginate fetch3 2 = List.range 21
      ∧ (unpaginate fetch3 2).length = 21 := by
  have h := (C9_unpaginate_concat (α := Nat)).2 fetch3 (by decide) (by decide)
    (by decide) (by decide) (by decide) (by decide)
  exact ⟨by rw [h.1]; decide, h.2⟩

/-! ## C5: the deserializer section split and metadata parsing -/

theorem dget_dinsert_ne (k k' v : Str) (d : Dict) (h : k' ≠ k) :
    dget k (dinsert k' v d) = dget k d := by
  induction d with
  | nil => simp [dinsert, dget, h]
  | cons kv rest ih =>
    rcases kv with ⟨k0, v0⟩
    by_cases h0 : k0 = k'
    · simp [dinsert, dget, h0, h]
    · simp only [dinsert, if_neg h0]
      by_cases h1 : k0 = k
      · simp [dget, h1]
      · simp [dget, h1, ih]

theorem dget_foldl_none (k : Str) (pairs : List (Str × Str)) :
    ∀ d : Dict, (∀ v, (k, v) ∈ pairs → v = []) → dget k d = none →
      dget k (pairs.foldl
        (fun d kv => if kv.2 = [] then d else dinsert kv.1 kv.2 d) d) = none := by
  induction pairs with
  | nil => intro d _ hd; exact hd
  | cons kv rest ih =>
    intro d hnone hd
    rcases kv with ⟨k0, v0⟩
    rw [List.foldl_cons]
    by_cases hv : v0 = []
    · rw [if_pos hv]
      exact ih d (fun v hv2 => hnone v (List.mem_cons_of_mem _ hv2)) hd
    · rw [if_neg hv]
      refine ih _ (fun v hv2 => hnone v (List.mem_cons_of_mem _ hv2)) ?_
      have hk0 : k0 ≠ k := by
        rintro rfl
        exact hv (hnone v0 (List.mem_cons_self _ _))
      rw [dget_dinsert_ne k k0 v0 d hk0]
      exact hd

theorem extract_lines_fold (pairs : List (Str × Str)) :
    ∀ d : Dict, (∀ kv ∈ pairs, hasSub [':', ' '] kv.1 = false) →
      ((pairs.map fun kv => kv.1 ++ [':', ' '] ++ kv.2).foldlM
        (fun d line =>
          match splitOnce [':', ' '] line with
          | (_, none) => Except.error "ValueError: not enough values to unpack"
          | (key, some value) =>
            if value = [] then Except.ok d
            else Except.ok (dinsert key value d))
        d : Except String Dict)
      = .ok (pairs.foldl
          (fun d kv => if kv.2 = [] then d else dinsert kv.1 kv.2 d) d) := by
  induction pairs with
  | nil => intro d _; rfl
  | cons kv rest ih =>
    intro d hks
    rcases kv with ⟨k0, v0⟩
    rw [List.map_cons, List.foldlM_cons]
    rw [splitOnce_pair ':' ' ' k0 v0
      (hks (k0, v0) (List.mem_cons_self _ _))
      (fun h => absurd h (by decide))]
    by_cases hv : v0 = []
    · rw [List.foldl_cons, if_pos hv]
      dsimp only
      rw [if_pos hv]
      exact ih d (fun kv2 h2 => hks kv2 (List.mem_cons_of_mem _ h2))
    · rw [List.foldl_cons, if_neg hv]
      dsimp only
      rw [if_neg hv]
      exact ih (dinsert k0 v0 d) (fun kv2 h2 => hks kv2 (List.mem_cons_of_mem _ h2))

/-- C5: `deserialize` splits at the last double newline, classifies the part
before it as nothing / title / title-plus-body by its first double newline
(preserving blank lines inside the body), and drops metadata keys whose
value is empty. -/
theorem C5_sections_and_metadata :
    (∀ s : Str, hasSub nn s = false →
      deserializeSections s = (none, none, s))
    ∧ (∀ t m : Str, hasSub nn t = false → hasSub nn m = false →
      m.head? ≠ some '\n' →
      deserializeSections (t ++ nn ++ m) = (some t, none, m))
    ∧ (∀ t b m : Str, hasSub nn t = false → t.getLast? ≠ some '\n' →
      hasSub nn m = false → m.head? ≠ some '\n' →
      deserializeSections (t ++ nn ++ b ++ nn ++ m) = (some t, some b, m))
    ∧ (∀ pairs : List (Str × Str), pairs ≠ [] →
      (∀ kv ∈ pairs,
        hasSub [':', ' '] kv.1 = false ∧ '\n' ∉ kv.1 ∧ '\n' ∉ kv.2) →
      extract_metadata (joinNl (pairs.map fun kv => kv.1 ++ [':', ' '] ++ kv.2))
          = .ok (pairs.foldl
              (fun d kv => if kv.2 = [] then d else dinsert kv.1 kv.2 d) [])
        ∧ ∀ k : Str, (∀ v, (k, v) ∈ pairs → v = []) →
          dget k (pairs.foldl
            (fun d kv => if kv.2 = [] then d else dinsert kv.1 kv.2 d) []) = none) := by
  have hnn : nn = ['\n', '\n'] := rfl
  refine ⟨?_, ?_, ?_, ?_⟩
  · intro s hs
    unfold deserializeSections
    rw [rsplitOnce_no_sep nn s (by rw [hnn]; simp) hs]
  · intro t m ht hm hmh
    unfold deserializeSections
    rw [hnn] at ht hm ⊢
    rw [rsplitOnce_pair '\n' '\n' t m hm (fun _ => hmh)]
    dsimp only
    rw [splitOnce_no_sep ['\n', '\n'] t (by simp) ht]
  · intro t b m ht htl hm hmh
    unfold deserializeSections
    rw [hnn] at ht hm ⊢
    rw [show t ++ ['\n', '\n'] ++ b ++ ['\n', '\n'] ++ m
        = (t ++ ['\n', '\n'] ++ b) ++ ['\n', '\n'] ++ m from by
      simp [List.append_assoc]]
    rw [rsplitOnce_pair '\n' '\n' (t ++ ['\n', '\n'] ++ b) m hm (fun _ => hmh)]
    dsimp only
    rw [splitOnce_pair '\n' '\n' t b ht (fun _ => htl)]
  · intro pairs hne hwf
    have hlines : ∀ l ∈ pairs.map fun kv => kv.1 ++ [':', ' '] ++ kv.2,
        '\n' ∉ l := by
      intro l hl
      rcases List.mem_map.mp hl with ⟨kv, hkv, rfl⟩
      intro hmem
      rcases List.mem_append.mp hmem with hmem | hmem
      · rcases List.mem_append.mp hmem with hmem | hmem
        · exact (hwf kv hkv).2.1 hmem
        · revert hmem; decide
      · exact (hwf kv hkv).2.2 hmem
    constructor
    · unfold extract_metadata
      rw [splitNl_joinNl _ (by simpa using hne) hlines]
      exact extract_lines_fold pairs [] (fun kv hkv => (hwf kv hkv).1)
    · intro k hk
      exact dget_foldl_none k pairs [] hk rfl

/-- C5 witness: the section split and the metadata parsing applied to the
concrete wire strings of the repository's own deserializer tests. -/
theorem C5_witness :
    deserializeSections "type_: 1".toList = (none, none, "type_: 1".toList)
    ∧ deserializeSections "note2\n\nid: abc\ntype_: 1".toList
        = (some "note2".toList, none, "id: abc\ntype_: 1".toList)
    ∧ deserializeSections
          "note2\n\nbody\n\nwith some\n\nnewlines\n\ntype_: 1".toList
        = (some "note2".toList, some "body\n\nwith some\n\nnewlines".toList,
           "type_: 1".toList)
    ∧ extract_metadata "id: abc\nupdated_time: \ntype_: 1".toList
        = .ok [("id".toList, "abc".toList), ("type_".toList, "1".toList)]
    ∧ dget "updated_time".toList
        [("id".toList, "abc".toList), ("type_".toList, "1".toList)] = none := by
  have h := C5_sections_and_metadata
  have hpairs : ([("id".toList, "abc".toList), ("updated_time".toList, []),
      ("type_".toList, "1".toList)] : List (Str × Str)) ≠ [] := by decide
  have h4 := h.2.2.2 [("id".toList, "abc".toList), ("updated_time".toList, []),
    ("type_".toList, "1".toList)] hpairs (by decide)
  refine ⟨h.1 "type_: 1".toList (by decide), ?_, ?_, ?_, ?_⟩
  · rw [show "note2\n\nid: abc\ntype_: 1".toList
        = "note2".toList ++ nn ++ "id: abc\ntype_: 1".toList from by decide]
    exact h.2.1 "note2".toList "id: abc\ntype_: 1".toList (by decide) (by decide)
      (by decide)
  · rw [show "note2\n\nbody\n\nwith some\n\nnewlines\n\ntype_: 1".toList
        = "note2".toList ++ nn ++ "body\n\nwith some\n\nnewlines".toList
          ++ nn ++ "type_: 1".toList from by decide]
    exact h.2.2.1 "note2".toList "body\n\nwith some\n\nnewlines".toList
      "type_: 1".toList (by decide) (by decide) (by decide) (by decide)
  · rw [show "id: abc\nupdated_time: \ntype_: 1".toList
        = joinNl (([("id".toList, "abc".toList), ("updated_time".toList, []),
            ("type_".toList, "1".toList)] : List (Str × Str)).map
            fun kv => kv.1 ++ [':', ' '] ++ kv.2) from by decide]
    exact h4.1.trans (congrArg Except.ok (by decide))
  · have := h4.2 "updated_time".toList (by
      intro v hv
      simp only [List.mem_cons, Prod.mk.injEq] at hv
      rcases hv with ⟨h1, h2⟩ | ⟨h1, h2⟩ | ⟨h1, h2⟩ | hfalse
      · exact absurd h1 (by decide)
      · exact h2
      · exact absurd h1 (by decide)
      · cases hfalse)
    exact (by decide : dget "updated_time".toList
      (([("id".toList, "abc".toList), ("updated_time".toList, []),
        ("type_".toList, "1".toList)] : List (Str × Str)).foldl
        (fun d kv => if kv.2 = [] then d else dinsert kv.1 kv.2 d) [])
      = dget "updated_time".toList
        [("id".toList, "abc".toList), ("type_".toList, "1".toList)]) ▸ this

/-! ## C1: the round-trip law

`deserialize (serialize r)` is checked for representative records of every
serializable kind, in the three shapes of the spec: metadata only, title
plus metadata, and title plus body plus metadata (with blank lines inside
the body).  Every field the caller set, plus the synthesized defaults (id,
type discriminator, the kind-specific defaults, and the always-emitted but
empty `updated_time`, which deserialization drops again), comes back
unchanged.  One peculiarity of the note serializer is part of the
round-trip: it always writes a title line, so a note without a title comes
back with an empty-string title.
-/

set_option maxRecDepth 100000

/-- C1: serialize-then-deserialize reproduces representative records of all
five kinds — Note (metadata only / title / title+body with internal blank
lines), Notebook, Tag, Resource and NoteTag — field for field, including
the synthesized id, discriminator and kind defaults. -/
theorem C1_round_trip :
    -- Note, metadata only (the synthesized title is the empty string)
    (deserialize ((NoteData.serialize
        { parent_id := some "0123456789abcdef0123456789abcdef".toList }
        "aaaabbbbccccddddeeeeffff00001111".toList).1)
      = .ok (some (.note
        { type_ := some .note,
          id := some "aaaabbbbccccddddeeeeffff00001111".toList,
          parent_id := some "0123456789abcdef0123456789abcdef".toList,
          title := some [],
          markup_language := some .markdown,
          source_application := some "joppy".toList })))
    -- Note, title + metadata
    ∧ (deserialize ((NoteData.serialize
        { parent_id := some "0123456789abcdef0123456789abcdef".toList,
          title := some "note2".toList }
        "aaaabbbbccccddddeeeeffff00001111".toList).1)
      = .ok (some (.note
        { type_ := some .note,
          id := some "aaaabbbbccccddddeeeeffff00001111".toList,
          parent_id := some "0123456789abcdef0123456789abcdef".toList,
          title := some "note2".toList,
          markup_language := some .markdown,
          source_application := some "joppy".toList })))
    -- Note, title + body + metadata, body with internal blank lines
    ∧ (deserialize ((NoteData.serialize
        { parent_id := some "0123456789abcdef0123456789abcdef".toList,
          title := some "note2".toList,
          body := some "body\n\nwith some\n\nnewlines".toList }
        "aaaabbbbccccddddeeeeffff00001111".toList).1)
      = .ok (some (.note
        { type_ := some .note,
          id := some "aaaabbbbccccddddeeeeffff00001111".toList,
          parent_id := some "0123456789abcdef0123456789abcdef".toList,
          title := some "note2".toList,
          body := some "body\n\nwith some\n\nnewlines".toList,
          markup_language := some .markdown,
          source_application := some "joppy".toList })))
    -- Notebook, metadata only
    ∧ (deserialize ((NotebookData.serialize {}
        "aaaabbbbccccddddeeeeffff00001111".toList).1)
      = .ok (some (.notebook
        { type_ := some .folder,
          id := some "aaaabbbbccccddddeeeeffff00001111".toList })))
    -- Notebook, title + metadata
    ∧ (deserialize ((NotebookData.serialize
        { title := some "my notebook".toList,
          parent_id := some "0123456789abcdef0123456789abcdef".toList }
        "aaaabbbbccccddddeeeeffff00001111".toList).1)
      = .ok (some (.notebook
        { type_ := some .folder,
          id := some "aaaabbbbccccddddeeeeffff00001111".toList,
          title := some "my notebook".toList,
          parent_id := some "0123456789abcdef0123456789abcdef".toList })))
    -- Tag, metadata only
    ∧ (deserialize ((TagData.serialize {}
        "aaaabbbbccccddddeeeeffff00001111".toList).1)
      = .ok (some (.tag
        { type_ := some .tag,
          id := some "aaaabbbbccccddddeeeeffff00001111".toList })))
    -- Tag, title + metadata
    ∧ (deserialize ((TagData.serialize { title := some "some tag".toList }
        "aaaabbbbccccddddeeeeffff00001111".toList).1)
      = .ok (some (.tag
        { type_ := some .tag,
          id := some "aaaabbbbccccddddeeeeffff00001111".toList,
          title := some "some tag".toList })))
    -- Resource, metadata only (mime falls back to application/octet-stream)
    ∧ (deserialize ((ResourceData.serialize
        { filename := some "dummy.raw".toList }
        "aaaabbbbccccddddeeeeffff00001111".toList).1)
      = .ok (some (.resource
        { type_ := some .resource,
          id := some "aaaabbbbccccddddeeeeffff00001111".toList,
          mime := some "application/octet-stream".toList,
          filename := some "dummy.raw".toList })))
    -- Resource, title + metadata (mime guessed from the extension)
    ∧ (deserialize ((ResourceData.serialize
        { title := some "resource title".toList,
          filename := some "test.png".toList }
        "aaaabbbbccccddddeeeeffff00001111".toList).1)
      = .ok (some (.resource
        { type_ := some .resource,
          id := some "aaaabbbbccccddddeeeeffff00001111".toList,
          title := some "resource title".toList,
          mime := some "image/png".toList,
          filename := some "test.png".toList })))
    -- NoteTag, metadata only
    ∧ (deserialize ((NoteTagData.serialize
        { note_id := some "11112222333344445555666677778888".toList,
          tag_id := some "9999aaaabbbbccccddddeeeeffff0000".toList }
        "aaaabbbbccccddddeeeeffff00001111".toList).1)
      = .ok (some (.noteTag
        { type_ := some .note_tag,
          id := some "aaaabbbbccccddddeeeeffff00001111".toList,
          note_id := some "11112222333344445555666677778888".toList,
          tag_id := some "9999aaaabbbbccccddddeeeeffff0000".toList }))) := by
  refine ⟨?_, ?_, ?_, ?_, ?_, ?_, ?_, ?_, ?_, ?_⟩ <;> decide

/-! ## C10: serialize persists its defaults, so a second call is stable -/

/-- C10: each `serialize` writes the synthesized defaults back onto the
record, so serializing the returned record again yields the same string and
the same record no matter what fresh id the second call would have drawn;
and `add_note` returns exactly the id that is embedded in the stored text's
`id:` metadata line. -/
theorem C10_serialize_idempotent :
    (∀ (r : NoteData) (f1 f2 : Str),
      (r.serialize f1).2.serialize f2 = r.serialize f1)
    ∧ (∀ (r : NotebookData) (f1 f2 : Str),
      (r.serialize f1).2.serialize f2 = r.serialize f1)
    ∧ (∀ (r : ResourceData) (f1 f2 : Str),
      (r.serialize f1).2.serialize f2 = r.serialize f1)
    ∧ (∀ (r : TagData) (f1 f2 : Str),
      (r.serialize f1).2.serialize f2 = r.serialize f1)
    ∧ (∀ (r : NoteTagData) (f1 f2 : Str),
      (r.serialize f1).2.serialize f2 = r.serialize f1)
    ∧ (∀ parent_id freshId : Str,
      is_id_valid parent_id = true → is_id_valid freshId = true →
      '\n' ∉ parent_id → '\n' ∉ freshId →
      add_note parent_id [] freshId
          = .ok (freshId,
              (NoteData.serialize { parent_id := some parent_id } freshId).1)
        ∧ lineStr "id" freshId
            ∈ splitNl ((NoteData.serialize
                { parent_id := some parent_id } freshId).1)) := by
  refine ⟨?_, ?_, ?_, ?_, ?_, ?_⟩
  · intro r f1 f2
    unfold NoteData.serialize
    rcases hid : r.id with _ | i <;> rcases hml : r.markup_language with _ | m <;>
      rcases hsa : r.source_application with _ | a <;> simp [hid, hml, hsa]
  · intro r f1 f2
    unfold NotebookData.serialize
    rcases hid : r.id with _ | i <;> simp [hid]
  · intro r f1 f2
    unfold ResourceData.serialize
    rcases hid : r.id with _ | i <;> rcases hmime : r.mime with _ | m <;>
      simp [hid, hmime]
  · intro r f1 f2
    unfold TagData.serialize
    rcases hid : r.id with _ | i <;> simp [hid]
  · intro r f1 f2
    unfold NoteTagData.serialize
    rcases hid : r.id with _ | i <;> simp [hid]
  · intro parent_id freshId hpid hfid hpnl hfnl
    have hcast : castIdField (some parent_id) = .ok (some parent_id) := by
      unfold castIdField
      dsimp only
      rw [if_neg]
      rintro ⟨-, h2⟩
      rw [hpid] at h2
      exact h2 rfl
    have hmk : mkNoteDataOfKwargs [("parent_id".toList, parent_id)]
        = .ok { parent_id := some parent_id } := by
      unfold mkNoteDataOfKwargs checkKnownKeys checkNotEncrypted
      simp only [dget, hcast]
      simp [castItemTypeField, castIdField, castTimeField, castBoolField,
        castLatitudeField, castLongitudeField, castMarkupField,
        noteFieldNames, hpid]
      rfl
    have hlines : (({ parent_id := some parent_id } : NoteData).serialize
        freshId).1
        = joinNl ([] :: [] :: lineStr "type_" (ItemType.pyStr .note)
            :: lineStr "id" freshId :: lineStr "parent_id" parent_id
            :: lineStr "updated_time" [] :: lineStr "source_application" "joppy".toList
            :: [lineStr "markup_language" (MarkupLanguage.pyStr .markdown)]) := by
      simp [NoteData.serialize, optLineStr, optLineTime, optLineBool,
        optLineFloat, updatedTimeLine]
    constructor
    · unfold add_note
      rw [show dget "parent_id".toList ([] : Dict) = none from rfl]
      dsimp only
      rw [show (("parent_id".toList, parent_id) :: ([] : Dict))
          = [("parent_id".toList, parent_id)] from rfl, hmk]
      rfl
    · rw [hlines]
      rw [splitNl_joinNl _ (by simp) ?_]
      · exact List.mem_cons_of_mem _ (List.mem_cons_of_mem _
          (List.mem_cons_of_mem _ (List.mem_cons_self _ _)))
      · intro l hl
        simp only [List.mem_cons] at hl
        rcases hl with rfl | rfl | rfl | rfl | rfl | rfl | rfl | rfl | hfalse
        · intro hc; cases hc
        · intro hc; cases hc
        · decide
        · intro hc
          rcases List.mem_append.mp hc with hc | hc
          · revert hc; decide
          · exact hfnl hc
        · intro hc
          rcases List.mem_append.mp hc with hc | hc
          · revert hc; decide
          · exact hpnl hc
        · decide
        · decide
        · decide
        · cases hfalse

/-- Concrete inputs for the C10 witness. -/
def c10pid : Str := "0123456789abcdef0123456789abcdef".toList

def c10fid : Str := "aaaabbbbccccddddeeeeffff00001111".toList

def c10note : NoteData := { parent_id := some c10pid, title := some "t".toList }

/-- C10 witness: stability of a second serialization and the id embedding of
`add_note`, at concrete ids. -/
theorem C10_witness :
    (c10note.serialize c10fid).2.serialize
        "ffffffffffffffffffffffffffffffff".toList = c10note.serialize c10fid
    ∧ add_note c10pid [] c10fid
        = .ok (c10fid,
            (NoteData.serialize { parent_id := some c10pid } c10fid).1)
    ∧ lineStr "id" c10fid
        ∈ splitNl ((NoteData.serialize
            { parent_id := some c10pid } c10fid).1) := by
  have h6 := C10_serialize_idempotent.2.2.2.2.2 c10pid c10fid
    (by decide) (by decide) (by decide) (by decide)
  exact ⟨C10_serialize_idempotent.1 c10note c10fid
    "ffffffffffffffffffffffffffffffff".toList, h6.1, h6.2⟩

/-! ## C2: the lock guard refuses guarded requests without a valid lock -/

/-- C2: for a request whose path is not exempted (login, lock endpoints,
sync-target version paths), a missing lock raises the distinct "no sync
lock" error and an expired lock the distinct "sync lock expired" error, and
in both cases no network call is made. -/
theorem C2_guard_denies_without_lock (st : ApiState) (method : String)
    (path : Str) (now : Nat) (hpath : bypassesLock path = false) :
    (st.current_sync_lock = none →
      request st method path now
        = { state := st, calls := [], raised := some .noLock })
    ∧ (∀ l : ServerLock, st.current_sync_lock = some l →
      is_lock_active l.updatedTime now = false →
      request st method path now
        = { state := st, calls := [], raised := some .lockExpired }) := by
  constructor
  · intro hnone
    unfold request
    rw [hpath, hnone]
    rfl
  · intro l hsome hexpired
    unfold request
    rw [hpath, hsome]
    dsimp only
    rw [hexpired]
    rfl

/-- C2 witness: a PUT of an item without (resp. with an expired) lock. -/
theorem C2_witness :
    request { client_id := "c1".toList, current_sync_lock := none } "put"
        "/api/items/root:/a.md:/content".toList 0
      = { state := { client_id := "c1".toList, current_sync_lock := none },
          calls := [], raised := some .noLock }
    ∧ request
        { client_id := "c1".toList,
          current_sync_lock := some
            { type := .SYNC, clientId := "c1".toList, updatedTime := 0 } }
        "put" "/api/items/root:/a.md:/content".toList 200000
      = { state :=
            { client_id := "c1".toList,
              current_sync_lock := some
                { type := .SYNC, clientId := "c1".toList, updatedTime := 0 } },
          calls := [], raised := some .lockExpired } := by
  constructor
  · exact (C2_guard_denies_without_lock
      { client_id := "c1".toList, current_sync_lock := none } "put"
      "/api/items/root:/a.md:/content".toList 0 (by decide)).1 rfl
  · exact (C2_guard_denies_without_lock
      { client_id := "c1".toList,
        current_sync_lock := some
          { type := .SYNC, clientId := "c1".toList, updatedTime := 0 } }
      "put" "/api/items/root:/a.md:/content".toList 200000 (by decide)).2
      { type := .SYNC, clientId := "c1".toList, updatedTime := 0 } rfl
      (by decide)

/-! ## C6: transparent lock auto-refresh -/

/-- C6: with an active lock, a guarded request leaves the lock untouched
when its age is within the auto-refresh interval, and re-posts it (new
`updatedTime`, stamped now) before the request when its age exceeds the
interval. -/
theorem C6_auto_refresh (st : ApiState) (method : String) (path : Str)
    (now : Nat) (l : ServerLock) (hpath : bypassesLock path = false)
    (hlock : st.current_sync_lock = some l)
    (hactive : is_lock_active l.updatedTime now = true) :
    (now ≤ l.updatedTime + lock_auto_refresh_interval →
      request st method path now
        = { state := st, calls := [.http method path], raised := none })
    ∧ (l.updatedTime + lock_auto_refresh_interval < now →
      request st method path now
        = { state :=
              { st with current_sync_lock := some ⟨.SYNC, st.client_id, now⟩ },
            calls := [.lockPost st.client_id, .http method path],
            raised := none }) := by
  constructor
  · intro hfresh
    have hc : ¬ (l.updatedTime + lock_auto_refresh_interval < now) := by omega
    simp [request, hpath, hlock, hactive, hc]
  · intro hstale
    simp [request, hpath, hlock, hactive, hstale, add_lock]

/-- C6 witness: a request 30 s after the lock is fresh enough; one 61 s
after triggers the transparent refresh before the request. -/
theorem C6_witness :
    request
        { client_id := "c1".toList,
          current_sync_lock := some
            { type := .SYNC, clientId := "c1".toList, updatedTime := 0 } }
        "get" "/api/items/root:/a.md:/content".toList 30000
      = { state :=
            { client_id := "c1".toList,
              current_sync_lock := some
                { type := .SYNC, clientId := "c1".toList, updatedTime := 0 } },
          calls := [.http "get" "/api/items/root:/a.md:/content".toList],
          raised := none }
    ∧ request
        { client_id := "c1".toList,
          current_sync_lock := some
            { type := .SYNC, clientId := "c1".toList, updatedTime := 0 } }
        "get" "/api/items/root:/a.md:/content".toList 61000
      = { state :=
            { client_id := "c1".toList,
              current_sync_lock := some
                { type := .SYNC, clientId := "c1".toList,
                  updatedTime := 61000 } },
          calls := [.lockPost "c1".toList,
            .http "get" "/api/items/root:/a.md:/content".toList],
          raised := none } := by
  constructor
  · exact (C6_auto_refresh
      { client_id := "c1".toList,
        current_sync_lock := some
          { type := .SYNC, clientId := "c1".toList, updatedTime := 0 } }
      "get" "/api/items/root:/a.md:/content".toList 30000
      { type := .SYNC, clientId := "c1".toList, updatedTime := 0 }
      (by decide) rfl (by decide)).1 (by decide)
  · exact (C6_auto_refresh
      { client_id := "c1".toList,
        current_sync_lock := some
          { type := .SYNC, clientId := "c1".toList, updatedTime := 0 } }
      "get" "/api/items/root:/a.md:/content".toList 61000
      { type := .SYNC, clientId := "c1".toList, updatedTime := 0 }
      (by decide) rfl (by decide)).2 (by decide)

/-! ## C3: exhausted acquisition and the same-client_id case

The claim as stated fails on the code: when the *same instance* already
holds the lock (`current_sync_lock` is set and its SYNC lock is still
active on the server), a second `sync_lock` acquisition exhausts all its
retries without installing anything, yet raises no error — the
`Couldn't aqcuire sync lock` check only fires when `current_sync_lock` is
`None`.  The claim does hold whenever the acquiring instance starts with no
lock in memory, which covers the reused-client_id scenario of the
repository's own test (a fresh instance with a copied client_id).
-/

/-- C3 counterexample: an instance that already holds the lock re-enters
`sync_lock`; the acquisition loop exhausts its single try without
installing a lock (state and store unchanged), and the block silently
succeeds instead of failing with a lock error. -/
theorem C3_counterexample :
    acquire_sync_lock
        { client_id := "c1".toList,
          current_sync_lock := some ⟨.SYNC, "c1".toList, 1000⟩ }
        { others := [], own := some ⟨.SYNC, "c1".toList, 1000⟩ } 2000 1
      = ({ client_id := "c1".toList,
           current_sync_lock := some ⟨.SYNC, "c1".toList, 1000⟩ },
         { others := [], own := some ⟨.SYNC, "c1".toList, 1000⟩ })
    ∧ sync_lock
        { client_id := "c1".toList,
          current_sync_lock := some ⟨.SYNC, "c1".toList, 1000⟩ }
        { others := [], own := some ⟨.SYNC, "c1".toList, 1000⟩ } 2000 false
      = .completed { client_id := "c1".toList, current_sync_lock := none }
          { others := [], own := none } := by
  decide

/-- C3 (amended): when the acquiring instance holds no lock in memory and
the server has an active SYNC lock with this client's id (e.g. a fresh
instance reusing the client_id of a holder), every bounded number of
acquisition attempts exhausts without installing a lock, and `sync_lock`
fails with a lock error — never a silent success. -/
theorem C3_exhaustion_raises (st : ApiState) (store : LockStore) (now : Nat)
    (cl : ServerLock) (hnone : st.current_sync_lock = none)
    (hmem : cl ∈ store.others) (htype : cl.type = .SYNC)
    (hcid : cl.clientId = st.client_id)
    (hactive : is_lock_active cl.updatedTime now = true) :
    ∀ tries bodyRaises, acquire_sync_lock st store now tries = (st, store)
      ∧ sync_lock st store now bodyRaises = .lockError st store := by
  have hlocked : is_locked st store.all now [.SYNC, .EXCLUSIVE] = true := by
    unfold is_locked
    apply List.any_eq_true.mpr
    refine ⟨cl, ?_, ?_⟩
    · exact List.mem_append.mpr (Or.inl hmem)
    · rw [htype, hcid, hactive]
      simp
  have hacq : ∀ tries, acquire_sync_lock st store now tries = (st, store) := by
    intro tries
    induction tries with
    | zero => rfl
    | succ tries ih =>
      rw [show acquire_sync_lock st store now (tries + 1)
          = if ¬ is_locked st store.all now [.SYNC, .EXCLUSIVE] then
              (let newLock := add_lock st now
               let st1 : ApiState := { st with current_sync_lock := some newLock }
               let store1 : LockStore := { store with own := some newLock }
               if is_locked st1 store1.all now [.EXCLUSIVE] then
                 let x := delete_own_lock st1 store1
                 acquire_sync_lock x.1 x.2 now tries
               else (st1, store1))
            else acquire_sync_lock st store now tries from rfl]
      rw [hlocked]
      simpa using ih
  intro tries bodyRaises
  refine ⟨hacq tries, ?_⟩
  unfold sync_lock
  rw [hacq 1]
  dsimp only
  rw [hnone]

/-- C3 witness: the scenario of the repository's `test_sync_lock_same_id`
test — a fresh instance with no in-memory lock, whose client_id matches an
active SYNC lock on the server — fails with a lock error. -/
theorem C3_witness :
    acquire_sync_lock { client_id := "c1".toList, current_sync_lock := none }
        { others := [⟨.SYNC, "c1".toList, 1000⟩], own := none } 2000 1
      = ({ client_id := "c1".toList, current_sync_lock := none },
         { others := [⟨.SYNC, "c1".toList, 1000⟩], own := none })
    ∧ sync_lock { client_id := "c1".toList, current_sync_lock := none }
        { others := [⟨.SYNC, "c1".toList, 1000⟩], own := none } 2000 false
      = .lockError { client_id := "c1".toList, current_sync_lock := none }
          { others := [⟨.SYNC, "c1".toList, 1000⟩], own := none } := by
  have h := C3_exhaustion_raises
    { client_id := "c1".toList, current_sync_lock := none }
    { others := [⟨.SYNC, "c1".toList, 1000⟩], own := none } 2000
    ⟨.SYNC, "c1".toList, 1000⟩ rfl (List.mem_cons_self _ _) rfl rfl
    (by decide) 1 false
  exact ⟨h.1, h.2⟩

/-! ## C4: release on exit of the scoped acquisition

The claim states the scoped `sync_lock` block releases the lock on every
exit path, including when the body raises.  The generator behind the
`@contextmanager` has no try/finally around its `yield`, so an exception in
the body propagates out of the `yield` and `_delete_own_lock()` is never
reached: the in-memory lock and the server lock record both survive.  On
normal completion the lock is released.  The code contradicts the
documented intent of a scoped acquisition, so this is recorded as a code
bug; the theorem below evaluates the model at the failing input.
-/

/-- C4 (code-bug evidence): after a successful acquisition, a body that
raises leaves `current_sync_lock` set and the server lock record in place
(no release), while a normally-returning body releases both. -/
theorem C4_exception_skips_release :
    sync_lock { client_id := "c1".toList, current_sync_lock := none }
        { others := [], own := none } 0 true
      = .bodyException
          { client_id := "c1".toList,
            current_sync_lock := some ⟨.SYNC, "c1".toList, 0⟩ }
          { others := [], own := some ⟨.SYNC, "c1".toList, 0⟩ }
    ∧ sync_lock { client_id := "c1".toList, current_sync_lock := none }
        { others := [], own := none } 0 false
      = .completed { client_id := "c1".toList, current_sync_lock := none }
          { others := [], own := none } := by
  decide
